import Mathlib

/-!
# Verification of the midi-sampler core

Shallow embedding of the C sources of the `midi-sampler` repository:
the lock-free event queue (`src/internal/internal_rt.h`), the ADSR
envelope generator (`src/core/envelope.c` and the RT variant in
`src/internal/internal_rt.h` / `src/realtime/envelope_rt.c`), the voice
resampling loop (`voice.c` / `voice_rt.c`), sample resolution
(`instrument_find_sample`), and the sampler-level note-on / render paths
(`sampler.c` / `src/realtime/sampler_rt.c`).

Floating point values (`float` / `double`) are embedded as rationals;
machine integers as `Nat` / `Int` with explicit truncation where the C
code relies on it.
-/

namespace MidiSampler

/-- Error codes from `midi_sampler.h`. -/
inductive ms_error_t where
  | MS_SUCCESS
  | MS_ERROR_INVALID_PARAM
  | MS_ERROR_OUT_OF_MEMORY
  | MS_ERROR_FILE_NOT_FOUND
  | MS_ERROR_INVALID_FORMAT
  | MS_ERROR_BUFFER_OVERFLOW
  | MS_ERROR_NOT_INITIALIZED
  | MS_ERROR_VOICE_LIMIT
  | MS_ERROR_UNKNOWN
  deriving DecidableEq, Repr

export ms_error_t (MS_SUCCESS MS_ERROR_INVALID_PARAM MS_ERROR_OUT_OF_MEMORY
  MS_ERROR_FILE_NOT_FOUND MS_ERROR_INVALID_FORMAT MS_ERROR_BUFFER_OVERFLOW
  MS_ERROR_NOT_INITIALIZED MS_ERROR_VOICE_LIMIT MS_ERROR_UNKNOWN)

/-! ## Lock-free event queue (`internal_rt.h`, lines 47-90)

The C queue is a 256-slot ring buffer addressed by `write_idx` and
`read_idx`.  The slot array is embedded as a `List` of fixed length 256;
the atomic loads/stores collapse to plain reads/writes in this
single-threaded embedding (the claims address the functional behaviour
for a single producer). -/

def RT_EVENT_QUEUE_SIZE : Nat := 256

/-- `rt_event_t`: note, velocity, event type (0 = note-on, 1 = note-off)
and the instrument pointer (embedded as an opaque numeric id). -/
structure rt_event_t where
  note : Nat
  velocity : Nat
  event_type : Nat
  instrument : Nat
  deriving DecidableEq, Repr

instance : Inhabited rt_event_t := ⟨⟨0, 0, 0, 0⟩⟩

structure rt_event_queue_t where
  write_idx : Nat
  read_idx : Nat
  events : List rt_event_t
  deriving DecidableEq, Repr

/-- The zero-initialised queue produced by `ms_sampler_create`. -/
def rt_queue_empty : rt_event_queue_t :=
  { write_idx := 0, read_idx := 0,
    events := List.replicate RT_EVENT_QUEUE_SIZE default }

/-- `rt_queue_push` (`internal_rt.h:64-76`): fails (returning `false`,
queue untouched) when `(write_idx+1) % capacity == read_idx`; otherwise
writes the slot at `write_idx` and publishes the new write index. -/
def rt_queue_push (q : rt_event_queue_t) (e : rt_event_t) :
    Bool × rt_event_queue_t :=
  let next_write := (q.write_idx + 1) % RT_EVENT_QUEUE_SIZE
  if next_write = q.read_idx then
    (false, q)
  else
    (true, { q with events := q.events.set q.write_idx e,
                    write_idx := next_write })

/-- `rt_queue_pop` (`internal_rt.h:78-90`): returns no event when
`read_idx == write_idx`; otherwise yields the slot at `read_idx` and
advances the read index. -/
def rt_queue_pop (q : rt_event_queue_t) : Option rt_event_t × rt_event_queue_t :=
  if q.read_idx = q.write_idx then
    (none, q)
  else
    (q.events.getD q.read_idx default,
     { q with read_idx := (q.read_idx + 1) % RT_EVENT_QUEUE_SIZE })

/-- Push a whole list of events in order (single producer), recording
whether every push succeeded. -/
def rt_queue_push_all (q : rt_event_queue_t) (es : List rt_event_t) :
    Bool × rt_event_queue_t :=
  es.foldl (fun acc e =>
    let r := rt_queue_push acc.2 e
    (acc.1 && r.1, r.2)) (true, q)

/-- Pop `n` events, collecting the values returned (stopping if the
queue reports empty). -/
def rt_queue_pop_n (q : rt_event_queue_t) : Nat → List rt_event_t × rt_event_queue_t
  | 0 => ([], q)
  | n + 1 =>
    let r := rt_queue_pop q
    match r.1 with
    | none => ([], r.2)
    | some e =>
      let t := rt_queue_pop_n r.2 n
      (e :: t.1, t.2)

/-! ## Sample data (`internal.h` / `internal_rt.h`) -/

/-- `ms_sample_metadata_t` (`midi_sampler.h:75-82`). -/
structure ms_sample_metadata_t where
  root_note : Nat
  velocity_low : Nat
  velocity_high : Nat
  loop_enabled : Bool
  loop_start : Nat
  loop_end : Nat
  deriving DecidableEq, Repr

/-- `ms_sample_data_t`: PCM data (interleaved if stereo), frame count,
channel count, metadata. -/
structure ms_sample_data_t where
  data : List ℚ
  num_frames : Nat
  channels : Nat
  meta : ms_sample_metadata_t
  deriving DecidableEq, Repr

/-! ## Envelope generator, portable version (`core/envelope.c`) -/

/-- `ms_envelope_t` (`midi_sampler.h:65-70`). -/
structure ms_envelope_t where
  attack_time : ℚ
  decay_time : ℚ
  sustain_level : ℚ
  release_time : ℚ
  deriving DecidableEq, Repr

inductive envelope_stage_t where
  | ENV_IDLE
  | ENV_ATTACK
  | ENV_DECAY
  | ENV_SUSTAIN
  | ENV_RELEASE
  deriving DecidableEq, Repr

structure envelope_generator_t where
  stage : envelope_stage_t
  current_level : ℚ
  sample_rate : ℚ
  params : ms_envelope_t
  stage_samples : Nat
  samples_processed : Nat
  deriving DecidableEq, Repr

/-- `(uint32_t)(time * sample_rate)`: C truncation of a nonnegative
double product to an unsigned stage length. -/
def msToSamples (t rate : ℚ) : Nat := (t * rate).floor.toNat

/-- The final clamp of `envelope_process`: level forced into [0,1]. -/
def clamp01 (x : ℚ) : ℚ := if x < 0 then 0 else if x > 1 then 1 else x

/-- `envelope_init` (`core/envelope.c:10-18`): zeroed state, Idle, level 0. -/
def envelope_init (sample_rate : ℚ) (params : ms_envelope_t) : envelope_generator_t :=
  { stage := .ENV_IDLE, current_level := 0, sample_rate := sample_rate,
    params := params, stage_samples := 0, samples_processed := 0 }

/-- `envelope_trigger` (`core/envelope.c:20-31`). -/
def envelope_trigger (env : envelope_generator_t) : envelope_generator_t :=
  let ss := msToSamples env.params.attack_time env.sample_rate
  { env with stage := .ENV_ATTACK,
             stage_samples := if ss = 0 then 1 else ss,
             samples_processed := 0 }

/-- `envelope_release` (`core/envelope.c:33-43`). -/
def envelope_release (env : envelope_generator_t) : envelope_generator_t :=
  let ss := msToSamples env.params.release_time env.sample_rate
  { env with stage := .ENV_RELEASE,
             stage_samples := if ss = 0 then 1 else ss,
             samples_processed := 0 }

/-- `envelope_process` (`core/envelope.c:45-110`): returns the level
before advancing, then advances the state machine and clamps. -/
def envelope_process (env : envelope_generator_t) : ℚ × envelope_generator_t :=
  let output := env.current_level
  let env' :=
    match env.stage with
    | .ENV_IDLE => { env with current_level := 0 }
    | .ENV_ATTACK =>
      if env.samples_processed < env.stage_samples then
        { env with
          current_level := (env.samples_processed : ℚ) / (env.stage_samples : ℚ),
          samples_processed := env.samples_processed + 1 }
      else
        let ds := msToSamples env.params.decay_time env.sample_rate
        { env with stage := .ENV_DECAY,
                   stage_samples := if ds = 0 then 1 else ds,
                   samples_processed := 0,
                   current_level := 1 }
    | .ENV_DECAY =>
      if env.samples_processed < env.stage_samples then
        let t : ℚ := (env.samples_processed : ℚ) / (env.stage_samples : ℚ)
        { env with current_level := 1 - t * (1 - env.params.sustain_level),
                   samples_processed := env.samples_processed + 1 }
      else
        { env with stage := .ENV_SUSTAIN, current_level := env.params.sustain_level }
    | .ENV_SUSTAIN => { env with current_level := env.params.sustain_level }
    | .ENV_RELEASE =>
      if env.samples_processed < env.stage_samples then
        let start_level := env.params.sustain_level
        let t : ℚ := (env.samples_processed : ℚ) / (env.stage_samples : ℚ)
        { env with current_level := start_level * (1 - t),
                   samples_processed := env.samples_processed + 1 }
      else
        { env with stage := .ENV_IDLE, current_level := 0 }
  (output, { env' with current_level := clamp01 env'.current_level })

/-- `envelope_is_active` (`core/envelope.c:112-115`). -/
def envelope_is_active (env : envelope_generator_t) : Bool :=
  env.stage ≠ .ENV_IDLE

/-- Iterate `envelope_process`, collecting the outputs in order. -/
def envelope_run (env : envelope_generator_t) : Nat → List ℚ × envelope_generator_t
  | 0 => ([], env)
  | n + 1 =>
    let r := envelope_process env
    let t := envelope_run r.2 n
    (r.1 :: t.1, t.2)

/-! ## Envelope generator, RT-optimized version
(`internal_rt.h:107-188`, `realtime/envelope_rt.c`) -/

namespace RT

/-- RT `envelope_generator_t` with the precomputed coefficients
(`internal_rt.h:115-128`). -/
structure envelope_generator_t where
  stage : envelope_stage_t
  current_level : ℚ
  sample_rate : ℚ
  params : ms_envelope_t
  attack_coeff : ℚ
  decay_coeff : ℚ
  release_coeff : ℚ
  stage_samples : Nat
  samples_processed : Nat
  deriving DecidableEq, Repr

/-- `envelope_init` (`realtime/envelope_rt.c:15-47`). -/
def envelope_init (sample_rate : ℚ) (params : ms_envelope_t) : envelope_generator_t :=
  let attack_samples := msToSamples params.attack_time sample_rate
  let decay_samples := msToSamples params.decay_time sample_rate
  let release_samples := msToSamples params.release_time sample_rate
  { stage := .ENV_IDLE, current_level := 0, sample_rate := sample_rate,
    params := params,
    attack_coeff := if attack_samples > 0 then 1 / (attack_samples : ℚ) else 1,
    decay_coeff := if decay_samples > 0 then
        (1 - params.sustain_level) / (decay_samples : ℚ) else 0,
    release_coeff := if release_samples > 0 then
        params.sustain_level / (release_samples : ℚ) else params.sustain_level,
    stage_samples := 0, samples_processed := 0 }

/-- `envelope_trigger` (`realtime/envelope_rt.c:49-60`). -/
def envelope_trigger (env : envelope_generator_t) : envelope_generator_t :=
  let ss := msToSamples env.params.attack_time env.sample_rate
  { env with stage := .ENV_ATTACK,
             stage_samples := if ss = 0 then 1 else ss,
             samples_processed := 0 }

/-- `envelope_release` (`realtime/envelope_rt.c:62-72`). -/
def envelope_release (env : envelope_generator_t) : envelope_generator_t :=
  let ss := msToSamples env.params.release_time env.sample_rate
  { env with stage := .ENV_RELEASE,
             stage_samples := if ss = 0 then 1 else ss,
             samples_processed := 0 }

/-- RT `envelope_process` (`internal_rt.h:135-184`).  The Idle branch
returns 0 immediately without touching the state; the other branches
advance by the precomputed coefficients and clamp.  Note: the RT
Attack→Decay transition does **not** clamp `stage_samples` to 1. -/
def envelope_process (env : envelope_generator_t) : ℚ × envelope_generator_t :=
  let output := env.current_level
  match env.stage with
  | .ENV_IDLE => (0, env)
  | _ =>
    let env' :=
      match env.stage with
      | .ENV_IDLE => env
      | .ENV_ATTACK =>
        if env.samples_processed < env.stage_samples then
          { env with current_level := env.current_level + env.attack_coeff,
                     samples_processed := env.samples_processed + 1 }
        else
          { env with stage := .ENV_DECAY,
                     stage_samples := msToSamples env.params.decay_time env.sample_rate,
                     samples_processed := 0,
                     current_level := 1 }
      | .ENV_DECAY =>
        if env.samples_processed < env.stage_samples then
          { env with current_level := env.current_level - env.decay_coeff,
                     samples_processed := env.samples_processed + 1 }
        else
          { env with stage := .ENV_SUSTAIN,
                     current_level := env.params.sustain_level }
      | .ENV_SUSTAIN => { env with current_level := env.params.sustain_level }
      | .ENV_RELEASE =>
        if env.samples_processed < env.stage_samples then
          { env with current_level := env.current_level - env.release_coeff,
                     samples_processed := env.samples_processed + 1 }
        else
          { env with stage := .ENV_IDLE, current_level := 0 }
    (output, { env' with current_level := clamp01 env'.current_level })

def envelope_is_active (env : envelope_generator_t) : Bool :=
  env.stage ≠ .ENV_IDLE

/-- Iterate the RT `envelope_process`, collecting the outputs. -/
def envelope_run (env : envelope_generator_t) : Nat → List ℚ × envelope_generator_t
  | 0 => ([], env)
  | n + 1 =>
    let r := envelope_process env
    let t := envelope_run r.2 n
    (r.1 :: t.1, t.2)

end RT

/-! ## Sample resolution (`sampler.c:177-213`, `sampler_rt.c:244-283`;
both implementations are textually identical up to the prefetch hint) -/

/-- `abs(note - root)` on `int`-promoted MIDI note numbers. -/
def note_distance (note root : Nat) : Nat :=
  ((note : Int) - (root : Int)).natAbs

/-- Whether `velocity` lies in the sample's `[velocity_low, velocity_high]`. -/
def vel_matches (velocity : Nat) (s : ms_sample_data_t) : Prop :=
  s.meta.velocity_low ≤ velocity ∧ velocity ≤ s.meta.velocity_high

instance (velocity : Nat) (s : ms_sample_data_t) : Decidable (vel_matches velocity s) :=
  inferInstanceAs (Decidable (_ ∧ _))

/-- One step of the first scan of `instrument_find_sample`: accept a
sample only if its velocity range contains `velocity` and it improves
the minimum note distance. -/
def find_scan_vel (note velocity : Nat)
    (acc : Option ms_sample_data_t × Nat) (s : ms_sample_data_t) :
    Option ms_sample_data_t × Nat :=
  if s.meta.velocity_low ≤ velocity ∧ velocity ≤ s.meta.velocity_high then
    if note_distance note s.meta.root_note < acc.2 then
      (some s, note_distance note s.meta.root_note)
    else acc
  else acc

/-- One step of the fallback scan: closest note, velocity ignored. -/
def find_scan_all (note : Nat)
    (acc : Option ms_sample_data_t × Nat) (s : ms_sample_data_t) :
    Option ms_sample_data_t × Nat :=
  if note_distance note s.meta.root_note < acc.2 then
    (some s, note_distance note s.meta.root_note)
  else acc

/-- `instrument_find_sample`: first scan preferring a velocity match,
then (when no velocity range matched and the instrument owns at least
one sample) a fallback scan by closest note, carrying over the running
minimum distance (still 128 at that point). -/
def instrument_find_sample (samples : List ms_sample_data_t)
    (note velocity : Nat) : Option ms_sample_data_t :=
  let r1 := samples.foldl (find_scan_vel note velocity) (none, 128)
  if r1.1 = none ∧ 0 < samples.length then
    (samples.foldl (find_scan_all note) r1).1
  else r1.1

/-! ## Voice (`internal_rt.h:194-222`, `voice.c`, `voice_rt.c`) -/

/-- `MIDI_FREQ_TABLE` (`voice_rt.c:18-35`): the 128 source constants,
read as exact decimals. -/
def MIDI_FREQ_TABLE : List ℚ :=
  [8.176, 8.662, 9.177, 9.723, 10.301, 10.913, 11.562, 12.250,
   12.978, 13.750, 14.568, 15.434, 16.352, 17.324, 18.354, 19.445,
   20.602, 21.827, 23.125, 24.500, 25.957, 27.500, 29.135, 30.868,
   32.703, 34.648, 36.708, 38.891, 41.203, 43.654, 46.249, 48.999,
   51.913, 55.000, 58.270, 61.735, 65.406, 69.296, 73.416, 77.782,
   82.407, 87.307, 92.499, 97.999, 103.826, 110.000, 116.541, 123.471,
   130.813, 138.591, 146.832, 155.563, 164.814, 174.614, 184.997, 195.998,
   207.652, 220.000, 233.082, 246.942, 261.626, 277.183, 293.665, 311.127,
   329.628, 349.228, 369.994, 391.995, 415.305, 440.000, 466.164, 493.883,
   523.251, 554.365, 587.330, 622.254, 659.255, 698.456, 739.989, 783.991,
   830.609, 880.000, 932.328, 987.767, 1046.502, 1108.731, 1174.659, 1244.508,
   1318.510, 1396.913, 1479.978, 1567.982, 1661.219, 1760.000, 1864.655, 1975.533,
   2093.005, 2217.461, 2349.318, 2489.016, 2637.020, 2793.826, 2959.955, 3135.963,
   3322.438, 3520.000, 3729.310, 3951.066, 4186.009, 4434.922, 4698.636, 4978.032,
   5274.041, 5587.652, 5919.911, 6271.927, 6644.875, 7040.000, 7458.620, 7902.133,
   8372.018, 8869.844, 9397.273, 9956.063, 10548.082, 11175.303, 11839.822, 12543.854]

/-- `midi_note_to_frequency` (`voice_rt.c:37-39`): table lookup at
`note & 0x7F`. -/
def midi_note_to_frequency (note : Nat) : ℚ :=
  MIDI_FREQ_TABLE.getD (note % 128) 0

/-- The equal-tempered relation of `voice.c:11-13` and the spec:
`440 * 2^((note-69)/12)`. -/
noncomputable def midi_note_to_frequency_exact (note : Nat) : ℝ :=
  440 * (2 : ℝ) ^ (((note : ℝ) - 69) / 12)

/-- `voice_t` (shared fields of `internal.h:63-77` and
`internal_rt.h:194-215`; the instrument back-pointer is an opaque id). -/
structure voice_t where
  active : Bool
  voice_id : Nat
  note : Nat
  velocity : Nat
  sample : Option ms_sample_data_t
  playback_position : ℚ
  playback_speed : ℚ
  envelope : envelope_generator_t
  pitch_bend_multiplier : ℚ
  instrument : Nat
  deriving DecidableEq, Repr

/-- `voice_init` (`voice.c:15-21` / `voice_rt.c:41-47`): zeroed voice
with its id and a unit pitch-bend multiplier. -/
def voice_init (voice_id : Nat) : voice_t :=
  { active := false, voice_id := voice_id, note := 0, velocity := 0,
    sample := none, playback_position := 0, playback_speed := 0,
    envelope := envelope_init 0 ⟨0, 0, 0, 0⟩,
    pitch_bend_multiplier := 1, instrument := 0 }

/-- `voice_trigger` (`voice_rt.c:49-70`, computable table variant;
`voice.c:23-41` computes the same ratio from `pow`).  The envelope is
(re)initialised at the hard-coded 44100 Hz rate and triggered. -/
def voice_trigger (voice : voice_t) (sample : ms_sample_data_t)
    (note velocity : Nat) (envelope : ms_envelope_t) : voice_t :=
  let target_freq := midi_note_to_frequency note
  let sample_freq := midi_note_to_frequency sample.meta.root_note
  { voice with
    active := true, note := note, velocity := velocity,
    sample := some sample, playback_position := 0,
    playback_speed := target_freq / sample_freq * voice.pitch_bend_multiplier,
    envelope := envelope_trigger (envelope_init 44100 envelope) }

/-- The playback speed formula of `voice_trigger`, isolated. -/
def voice_trigger_speed (note root : Nat) (pitch_bend_multiplier : ℚ) : ℚ :=
  midi_note_to_frequency note / midi_note_to_frequency root * pitch_bend_multiplier

/-- The speed `voice.c` / the spec's equal-tempered relation would
assign: `freq(note)/freq(root) * pitch_bend_multiplier` with
`freq(n) = 440·2^((n-69)/12)`. -/
noncomputable def voice_trigger_speed_exact (note root : Nat)
    (pitch_bend_multiplier : ℚ) : ℝ :=
  midi_note_to_frequency_exact note / midi_note_to_frequency_exact root *
    (pitch_bend_multiplier : ℝ)

/-- `voice_release` (`voice.c:43-46`): forwards to the envelope. -/
def voice_release (voice : voice_t) : voice_t :=
  { voice with envelope := envelope_release voice.envelope }

/-- Mix (`+=`) a value into the output buffer at index `i`. -/
def list_add_at (l : List ℚ) (i : Nat) (v : ℚ) : List ℚ :=
  l.set i (l.getD i 0 + v)

/-- Loop state of `voice_process`: the local `position`, the embedded
envelope, the output buffer being mixed into, and the voice-active flag
(`active := false` encodes the `break` paths). -/
structure vp_state where
  position : ℚ
  env : envelope_generator_t
  output : List ℚ
  active : Bool
  deriving DecidableEq, Repr

/-- The per-frame loop of `voice_process` (`voice.c:58-110` /
`voice_rt.c:105-158`): bounds check with loop wrap or deactivation,
linear interpolation (first channel of a stereo source), envelope and
velocity gain applied, additive mix (duplicated across a stereo
output), position advance, envelope-exhaustion check. -/
def vp_loop (sample : ms_sample_data_t) (speed vgain : ℚ) (channels : Nat) :
    Nat → Nat → vp_state → vp_state
  | 0, _, st => st
  | n + 1, i, st =>
    if ¬ st.active then st else
    let wrap :=
      if st.position ≥ (sample.num_frames : ℚ) then
        if sample.meta.loop_enabled ∧ sample.meta.loop_start < sample.meta.loop_end then
          (true, (sample.meta.loop_start : ℚ))
        else (false, st.position)
      else (true, st.position)
    if ¬ wrap.1 then { st with active := false } else
    let pos := wrap.2
    let index := pos.floor.toNat
    let frac := pos - (index : ℚ)
    let s0 := if sample.channels = 1 then sample.data.getD index 0
              else sample.data.getD (index * 2) 0
    let s1 := if index + 1 < sample.num_frames then
                (if sample.channels = 1 then sample.data.getD (index + 1) 0
                 else sample.data.getD ((index + 1) * 2) 0)
              else s0
    let sample_value := s0 + frac * (s1 - s0)
    let er := envelope_process st.env
    let final_value := sample_value * er.1 * vgain
    let out' := if channels = 1 then list_add_at st.output i final_value
                else list_add_at (list_add_at st.output (i * 2) final_value)
                       (i * 2 + 1) final_value
    let active' := envelope_is_active er.2
    vp_loop sample speed vgain channels n (i + 1)
      { position := pos + speed, env := er.2, output := out', active := active' }

/-- `voice_process` (`voice.c:48-113`): early return for an inactive or
sample-less voice, velocity gain `velocity/127`, then the frame loop;
finally write back position, envelope and active flag. -/
def voice_process (voice : voice_t) (output : List ℚ)
    (num_frames channels : Nat) : List ℚ × voice_t :=
  match voice.sample with
  | none => (output, voice)
  | some sample =>
    if ¬ voice.active then (output, voice) else
    let vgain : ℚ := (voice.velocity : ℚ) / 127
    let st := vp_loop sample voice.playback_speed vgain channels num_frames 0
      { position := voice.playback_position, env := voice.envelope,
        output := output, active := true }
    (st.output,
     { voice with playback_position := st.position, envelope := st.env,
                  active := st.active })

/-! ## Instrument and sampler (`sampler.c`, `sampler_rt.c`) -/

/-- `ms_instrument_t` (`internal_rt.h:228-236`), sans back-pointer: the
sampler reference is implicit in the embedding. -/
structure ms_instrument_t where
  samples : List ms_sample_data_t
  envelope : ms_envelope_t
  pitch_bend_range : ℚ
  current_pitch_bend : Int
  deriving DecidableEq, Repr

/-- First inactive slot in the voice pool (`for` scan in index order). -/
def find_inactive (voices : List voice_t) : Option Nat :=
  voices.findIdx? (fun v => ¬ v.active)

/-- Voice allocation policy of `ms_note_on` (`sampler.c:233-245`) and
`process_events` (`sampler_rt.c:383-395`): first inactive slot in index
order, else steal pool index 0. -/
def alloc_voice_index (voices : List voice_t) : Nat :=
  (find_inactive voices).getD 0

/-- The note-on handling shared by `ms_note_on` (`sampler.c:247-248`)
and `process_events` (`sampler_rt.c:397-398`), after the sample has
been resolved: trigger the allocated (or stolen) voice and bind it to
the instrument.  Returns the updated pool and the chosen index. -/
def pool_note_on (voices : List voice_t) (sample : ms_sample_data_t)
    (note velocity : Nat) (envelope : ms_envelope_t) (instrument : Nat) :
    List voice_t × Nat :=
  let idx := alloc_voice_index voices
  let v := (voices.getD idx (voice_init 0))
  (voices.set idx
    { voice_trigger v sample note velocity envelope with instrument := instrument },
   idx)

/-- Iterated note-on for a list of (note, velocity) events on one
instrument (all resolving to the given sample). -/
def pool_note_on_seq (sample : ms_sample_data_t) (envelope : ms_envelope_t)
    (instrument : Nat) (voices : List voice_t) :
    List (Nat × Nat) → List voice_t
  | [] => voices
  | e :: es =>
    pool_note_on_seq sample envelope instrument
      (pool_note_on voices sample e.1 e.2 envelope instrument).1 es

/-- The initial voice pool built by `ms_sampler_create`
(`sampler_rt.c:50-52`): `max_polyphony` zeroed voices with ids 1, 2, …. -/
def initial_pool (max_polyphony : Nat) : List voice_t :=
  (List.range max_polyphony).map (fun i => voice_init (i + 1))

/-- RT sampler state (`internal_rt.h:275-302`), restricted to the
fields the render and note paths touch.  Instruments are reached
through opaque ids (pointer dereference becomes a lookup function). -/
structure ms_sampler_t where
  channels : Nat
  max_polyphony : Nat
  voices : List voice_t
  event_queue : rt_event_queue_t
  instruments : Nat → ms_instrument_t
  frames_processed : Nat

/-- `ms_note_on` in the RT configuration (`sampler_rt.c:289-308`): only
publishes a note-on event; the `voice_id` out-pointer (modelled as the
third component, `none` = nothing stored) is never written. -/
def ms_note_on_rt (s : ms_sampler_t) (instrument : Nat) (note velocity : Nat) :
    ms_error_t × ms_sampler_t × Option Nat :=
  let e : rt_event_t :=
    { note := note, velocity := velocity, event_type := 0, instrument := instrument }
  let r := rt_queue_push s.event_queue e
  if r.1 then (MS_SUCCESS, { s with event_queue := r.2 }, none)
  else (MS_ERROR_BUFFER_OVERFLOW, s, none)

/-- Non-RT sampler state (`internal.h:137-148`), restricted likewise. -/
structure ms_sampler_nonrt_t where
  channels : Nat
  max_polyphony : Nat
  voices : List voice_t
  instruments : Nat → ms_instrument_t
  playback_sample_count : Nat

/-- `ms_note_on` in the lock-based configuration (`sampler.c:219-256`):
resolve the sample (INVALID_PARAM when none), allocate or steal a
voice, trigger it, and store its id through a non-null `voice_id`
pointer (`want_id` models pointer non-nullness). -/
def ms_note_on_nonrt (s : ms_sampler_nonrt_t) (instrument : Nat)
    (note velocity : Nat) (want_id : Bool) :
    ms_error_t × ms_sampler_nonrt_t × Option Nat :=
  let inst := s.instruments instrument
  match instrument_find_sample inst.samples note velocity with
  | none => (MS_ERROR_INVALID_PARAM, s, none)
  | some sample =>
    let r := pool_note_on s.voices sample note velocity inst.envelope instrument
    let vid := (r.1.getD r.2 (voice_init 0)).voice_id
    (MS_SUCCESS, { s with voices := r.1 }, if want_id then some vid else none)

/-- One event dispatch of `process_events` (`sampler_rt.c:376-408`). -/
def dispatch_event (s : ms_sampler_t) (e : rt_event_t) : ms_sampler_t :=
  let inst := s.instruments e.instrument
  if e.event_type = 0 then
    match instrument_find_sample inst.samples e.note e.velocity with
    | none => s
    | some sample =>
      { s with voices :=
          (pool_note_on s.voices sample e.note e.velocity inst.envelope e.instrument).1 }
  else
    { s with voices := s.voices.map (fun v =>
        if v.active ∧ v.note = e.note ∧ v.instrument = e.instrument
        then voice_release v else v) }

/-- `process_events` (`sampler_rt.c:367-410`): drain up to
`RT_EVENT_QUEUE_SIZE` events per call. -/
def process_events_loop (s : ms_sampler_t) : Nat → ms_sampler_t
  | 0 => s
  | fuel + 1 =>
    let r := rt_queue_pop s.event_queue
    match r.1 with
    | none => s
    | some e => process_events_loop (dispatch_event { s with event_queue := r.2 } e) fuel

def process_events (s : ms_sampler_t) : ms_sampler_t :=
  process_events_loop s RT_EVENT_QUEUE_SIZE

/-- Mix every active voice of the pool into the buffer in index order
(`sampler_rt.c:428-432`). -/
def mix_voices (num_frames channels : Nat) :
    List voice_t → List ℚ → List ℚ × List voice_t
  | [], out => (out, [])
  | v :: vs, out =>
    let r := if v.active then voice_process v out num_frames channels else (out, v)
    let t := mix_voices num_frames channels vs r.1
    (t.1, r.2 :: t.2)

/-- `ms_process` in the RT configuration (`sampler_rt.c:412-438`).
Null arguments (`none`) short-circuit with `INVALID_PARAM` and no
mutation; otherwise: clear the buffer, drain events, mix the active
voices, bump `frames_processed`, return success. -/
def ms_process (sampler : Option ms_sampler_t) (output : Option (List ℚ))
    (num_frames : Nat) :
    ms_error_t × Option ms_sampler_t × Option (List ℚ) :=
  match sampler, output with
  | none, o => (MS_ERROR_INVALID_PARAM, none, o)
  | some s, none => (MS_ERROR_INVALID_PARAM, some s, none)
  | some s, some _ =>
    let cleared := List.replicate (num_frames * s.channels) (0 : ℚ)
    let s1 := process_events s
    let r := mix_voices num_frames s.channels s1.voices cleared
    (MS_SUCCESS,
     some { s1 with voices := r.2,
                    frames_processed := s1.frames_processed + num_frames },
     some r.1)

/-! ## Concrete test fixtures used by witnesses and counterexamples -/

/-- The round-trip envelope of claim C6: zero attack/decay/release
times, sustain level 1. -/
def c6_params : ms_envelope_t := ⟨0, 0, 1, 0⟩

/-- The envelope state sequence reached by `envelope_process` after the
voice trigger with `c6_params` at the hard-coded 44100 Hz rate:
two one-sample Attack/Decay stages, then Sustain forever. -/
def c6_env : Nat → envelope_generator_t
  | 0 => ⟨.ENV_ATTACK, 0, 44100, c6_params, 1, 0⟩
  | 1 => ⟨.ENV_ATTACK, 0, 44100, c6_params, 1, 1⟩
  | 2 => ⟨.ENV_DECAY, 1, 44100, c6_params, 1, 0⟩
  | 3 => ⟨.ENV_DECAY, 1, 44100, c6_params, 1, 1⟩
  | _ + 4 => ⟨.ENV_SUSTAIN, 1, 44100, c6_params, 1, 1⟩

/-- Envelope output at frame `k` under `c6_params`: 0 for the first two
frames (one-sample latency plus the single Attack sample), 1 after. -/
def c6_level (k : Nat) : ℚ := if k < 2 then 0 else 1

/-- Reference mixing loop for the round-trip claim: at speed 1 and unit
gains, frame `i` adds `data[i] * c6_level i` into the buffer. -/
def c6_ref_loop (data : List ℚ) : Nat → Nat → List ℚ → List ℚ
  | 0, _, out => out
  | n + 1, i, out =>
    c6_ref_loop data n (i + 1) (out.set i (out.getD i 0 + data.getD i 0 * c6_level i))

/-- A concrete 4-frame mono sample, root note 60, full velocity range,
no loop. -/
def c6_sample : ms_sample_data_t := ⟨[1, 1, 1, 1], 4, 1, ⟨60, 0, 127, false, 0, 0⟩⟩

/-- The voice produced when NoteOn event `e` triggers pool slot `i`
from its initial state (used to characterise the fill phase of the
pool). -/
def c5_trig (sample : ms_sample_data_t) (envp : ms_envelope_t) (instid : Nat)
    (i : Nat) (e : Nat × Nat) : voice_t :=
  { voice_trigger (voice_init (i + 1)) sample e.1 e.2 envp with instrument := instid }

/-- Expected pool after the NoteOn events `es` (at most `P` of them)
have been dispatched on an all-idle pool of size `P`: slot `i` holds
the trigger of `es[i]` when it exists, its initial voice otherwise. -/
def c5_pool (sample : ms_sample_data_t) (envp : ms_envelope_t) (instid : Nat)
    (P : Nat) (es : List (Nat × Nat)) : List voice_t :=
  (List.range P).map (fun i =>
    match es[i]? with
    | some e => c5_trig sample envp instid i e
    | none => voice_init (i + 1))

/-- A concrete instrument owning `c6_sample`. -/
def fixture_instrument : ms_instrument_t := ⟨[c6_sample], ⟨1/100, 1/10, 7/10, 3/10⟩, 2, 0⟩

/-- A concrete RT sampler: stereo, 2 voices, empty queue. -/
def fixture_sampler : ms_sampler_t :=
  ⟨2, 2, initial_pool 2, rt_queue_empty, fun _ => fixture_instrument, 0⟩

/-- The same fixture for the lock-based configuration. -/
def fixture_sampler_nonrt : ms_sampler_nonrt_t :=
  ⟨2, 2, initial_pool 2, fun _ => fixture_instrument, 0⟩

/-! ### Queue lemmas (claim C1) -/

lemma rt_queue_push_all_append (q : rt_event_queue_t) (es : List rt_event_t)
    (e : rt_event_t) :
    rt_queue_push_all q (es ++ [e]) =
      ((rt_queue_push_all q es).1 && (rt_queue_push (rt_queue_push_all q es).2 e).1,
       (rt_queue_push (rt_queue_push_all q es).2 e).2) := by
  simp [rt_queue_push_all, List.foldl_append]

/-- State of the queue after pushing `es` (with `es.length ≤ 255`) onto
the empty queue: every push succeeded, `write_idx = es.length`,
`read_idx = 0`, and the first `es.length` slots hold `es` in order. -/
lemma rt_queue_push_all_spec (es : List rt_event_t) (h : es.length ≤ 255) :
    (rt_queue_push_all rt_queue_empty es).1 = true ∧
    (rt_queue_push_all rt_queue_empty es).2.write_idx = es.length ∧
    (rt_queue_push_all rt_queue_empty es).2.read_idx = 0 ∧
    (rt_queue_push_all rt_queue_empty es).2.events.length = 256 ∧
    ∀ j, j < es.length → (rt_queue_push_all rt_queue_empty es).2.events[j]? = es[j]? := by
  induction es using List.reverseRecOn with
  | nil =>
    refine ⟨rfl, rfl, rfl, ?_, ?_⟩
    · show (List.replicate RT_EVENT_QUEUE_SIZE (default : rt_event_t)).length = 256
      rw [List.length_replicate]
      rfl
    · intro j hj
      simp only [List.length_nil] at hj
      omega
  | append_singleton es e ih =>
    have hlen : es.length ≤ 255 := by
      simp only [List.length_append, List.length_singleton] at h; omega
    have hlt : es.length ≤ 254 := by
      simp only [List.length_append, List.length_singleton] at h; omega
    obtain ⟨hok, hw, hr, hev, hslots⟩ := ih hlen
    have hmod : (es.length + 1) % RT_EVENT_QUEUE_SIZE = es.length + 1 := by
      unfold RT_EVENT_QUEUE_SIZE; omega
    have hpush : rt_queue_push (rt_queue_push_all rt_queue_empty es).2 e =
        (true, { (rt_queue_push_all rt_queue_empty es).2 with
                  events := (rt_queue_push_all rt_queue_empty es).2.events.set es.length e,
                  write_idx := es.length + 1 }) := by
      rw [rt_queue_push]
      simp only [hw, hr, hmod]
      rw [if_neg (by omega)]
    rw [rt_queue_push_all_append, hpush, hok]
    refine ⟨rfl, by simp, by simp [hr], by simp [hev], ?_⟩
    intro j hj
    simp only [List.length_append, List.length_singleton] at hj
    rcases Nat.lt_or_ge j es.length with hcase | hcase
    · have hne : es.length ≠ j := by omega
      simp only [List.getElem?_set_ne hne]
      rw [hslots j hcase, List.getElem?_append_left hcase]
    · have hje : j = es.length := by omega
      subst hje
      rw [List.getElem?_concat_length]
      exact List.getElem?_set_self (by omega)

/-- Popping drains the pushed events in FIFO order: from a queue whose
slots `read_idx ≤ j < write_idx = es.length` hold `es`, popping
`es.length - read_idx` times yields exactly the remaining suffix. -/
lemma rt_queue_pop_n_spec (k : Nat) :
    ∀ (r : Nat) (es : List rt_event_t) (q : rt_event_queue_t),
    q.write_idx = es.length → q.read_idx = r → es.length ≤ 255 →
    r + k = es.length →
    (∀ j, j < es.length → q.events[j]? = es[j]?) →
    (rt_queue_pop_n q k).1 = es.drop r := by
  induction k with
  | zero =>
    intro r es q _ _ _ hrk _
    have : r = es.length := by omega
    subst this
    simp [rt_queue_pop_n, List.drop_length]
  | succ k ih =>
    intro r es q hw hr hlen hrk hslots
    have hrlt : r < es.length := by omega
    have hpop : rt_queue_pop q =
        (some (es.get ⟨r, hrlt⟩), { q with read_idx := r + 1 }) := by
      rw [rt_queue_pop]
      have hne : q.read_idx ≠ q.write_idx := by rw [hr, hw]; omega
      rw [if_neg hne]
      have hget : q.events.getD q.read_idx default = es.get ⟨r, hrlt⟩ := by
        rw [List.getD_eq_getElem?_getD, hr, hslots r hrlt,
          List.getElem?_eq_getElem hrlt]
        simp
      have hmod : (q.read_idx + 1) % RT_EVENT_QUEUE_SIZE = r + 1 := by
        rw [hr]; unfold RT_EVENT_QUEUE_SIZE; omega
      rw [hget, hmod]
    show (rt_queue_pop_n q (k + 1)).1 = es.drop r
    rw [rt_queue_pop_n, hpop]
    simp only []
    have htail := ih (r + 1) es { q with read_idx := r + 1 }
      (by simpa using hw) rfl hlen (by omega) (by simpa using hslots)
    rw [List.drop_eq_getElem_cons hrlt]
    simp [htail]

/-- Pushing onto a full queue fails and returns the queue unchanged. -/
lemma rt_queue_push_full (q : rt_event_queue_t)
    (h : (q.write_idx + 1) % RT_EVENT_QUEUE_SIZE = q.read_idx) (e : rt_event_t) :
    rt_queue_push q e = (false, q) := by
  rw [rt_queue_push]
  simp [h]

/-- Popping an empty queue (`read_idx = write_idx`) returns no event and
leaves the queue unchanged. -/
lemma rt_queue_pop_empty (q : rt_event_queue_t) (h : q.read_idx = q.write_idx) :
    rt_queue_pop q = (none, q) := by
  rw [rt_queue_pop]
  simp [h]

/-- C1: for the 256-slot event queue, pushing any `capacity-1 = 255`
events onto the empty queue all succeed; with exactly 255 pushed, one
further push fails and leaves the queue unchanged (and `ms_note_on`
surfaces this as `BUFFER_OVERFLOW` without mutating the sampler);
popping an empty queue (`read_idx = write_idx`) returns no event; and
the events are popped in exactly the order they were pushed (FIFO,
single producer). -/
theorem C1_event_queue (es : List rt_event_t) (h : es.length ≤ 255) :
    (rt_queue_push_all rt_queue_empty es).1 = true ∧
    (rt_queue_pop_n (rt_queue_push_all rt_queue_empty es).2 es.length).1 = es ∧
    (es.length = 255 → ∀ e, rt_queue_push (rt_queue_push_all rt_queue_empty es).2 e =
        (false, (rt_queue_push_all rt_queue_empty es).2)) ∧
    (es.length = 255 → ∀ (s : ms_sampler_t) (inst note vel : Nat),
        s.event_queue = (rt_queue_push_all rt_queue_empty es).2 →
        ms_note_on_rt s inst note vel = (MS_ERROR_BUFFER_OVERFLOW, s, none)) ∧
    (∀ q : rt_event_queue_t, q.read_idx = q.write_idx → rt_queue_pop q = (none, q)) := by
  obtain ⟨hok, hw, hr, _, hslots⟩ := rt_queue_push_all_spec es h
  have hfull : es.length = 255 → ∀ e,
      rt_queue_push (rt_queue_push_all rt_queue_empty es).2 e =
        (false, (rt_queue_push_all rt_queue_empty es).2) := by
    intro h255 e
    refine rt_queue_push_full _ ?_ e
    rw [hw, hr, h255]
    decide
  refine ⟨hok, ?_, hfull, ?_, rt_queue_pop_empty⟩
  · have := rt_queue_pop_n_spec es.length 0 es _ hw hr h (by omega) hslots
    simpa using this
  · intro h255 s inst note vel hq
    rw [ms_note_on_rt, hq, hfull h255]
    simp

/-- C1 witness: a concrete two-event run through the queue. -/
theorem C1_event_queue_witness :
    (rt_queue_pop_n
      (rt_queue_push_all rt_queue_empty
        [⟨60, 100, 0, 1⟩, ⟨62, 101, 0, 1⟩]).2 2).1 =
      [⟨60, 100, 0, 1⟩, ⟨62, 101, 0, 1⟩] :=
  (C1_event_queue [⟨60, 100, 0, 1⟩, ⟨62, 101, 0, 1⟩] (by decide)).2.1

/-! ### Render-path claims (C8) -/

/-- C8: `ms_process` is infallible on valid arguments (returns
`MS_SUCCESS` for every sampler/output pair) and on a null sampler or
output returns `INVALID_PARAM` leaving both the sampler state and the
output buffer untouched. -/
theorem C8_ms_process_infallible (s : ms_sampler_t) (out : List ℚ) (n : Nat) :
    (ms_process (some s) (some out) n).1 = MS_SUCCESS ∧
    ms_process none (some out) n = (MS_ERROR_INVALID_PARAM, none, some out) ∧
    ms_process (some s) none n = (MS_ERROR_INVALID_PARAM, some s, none) ∧
    ms_process none none n = (MS_ERROR_INVALID_PARAM, none, none) :=
  ⟨rfl, rfl, rfl, rfl⟩

/-! ### Note-on voice id claims (C9) -/

/-- The allocation index is always a valid pool slot. -/
lemma alloc_voice_index_lt (voices : List voice_t) (h : 0 < voices.length) :
    alloc_voice_index voices < voices.length := by
  unfold alloc_voice_index find_inactive
  cases hf : voices.findIdx? (fun v => ¬ v.active) with
  | none => simpa using h
  | some i =>
    have := (List.findIdx?_eq_some_iff_findIdx_eq.mp hf).1
    simpa using this

/-- C9 (amended): in the lock-based configuration, a successful
`ms_note_on` with a non-null `voice_id` pointer stores the id of the
pool voice that now actively plays the requested note. -/
theorem C9_note_on_stores_voice_id (s : ms_sampler_nonrt_t) (inst note vel : Nat)
    (hpool : 0 < s.voices.length)
    (hfind : (instrument_find_sample (s.instruments inst).samples note vel).isSome) :
    (ms_note_on_nonrt s inst note vel true).1 = MS_SUCCESS ∧
    ∃ idx, idx < (ms_note_on_nonrt s inst note vel true).2.1.voices.length ∧
      (ms_note_on_nonrt s inst note vel true).2.2 =
        some (((ms_note_on_nonrt s inst note vel true).2.1.voices.getD idx
          (voice_init 0)).voice_id) ∧
      ((ms_note_on_nonrt s inst note vel true).2.1.voices.getD idx
        (voice_init 0)).active = true ∧
      ((ms_note_on_nonrt s inst note vel true).2.1.voices.getD idx
        (voice_init 0)).note = note := by
  obtain ⟨sample, hs⟩ := Option.isSome_iff_exists.mp hfind
  have hlt := alloc_voice_index_lt s.voices hpool
  have hget : ∀ v : voice_t,
      (s.voices.set (alloc_voice_index s.voices) v).getD (alloc_voice_index s.voices)
        (voice_init 0) = v := by
    intro v
    rw [List.getD_eq_getElem?_getD, List.getElem?_set_self (by simpa using hlt)]
    rfl
  simp only [ms_note_on_nonrt, hs, pool_note_on]
  refine ⟨trivial, alloc_voice_index s.voices, ?_, ?_, ?_, ?_⟩
  · rw [List.length_set]; exact hlt
  · rfl
  · rw [hget]; rfl
  · rw [hget]; rfl

/-- C9 counterexample: in the RT configuration (`sampler_rt.c`),
`ms_note_on` succeeds yet never stores anything through the `voice_id`
out-pointer (third component `none`), so the claim fails as stated. -/
theorem C9_counterexample :
    (ms_note_on_rt fixture_sampler 0 60 100).1 = MS_SUCCESS ∧
    (ms_note_on_rt fixture_sampler 0 60 100).2.2 = none := by
  constructor <;> rfl

/-- C9 witness: the concrete lock-based sampler stores voice id 1. -/
theorem C9_note_on_stores_voice_id_witness :
    (ms_note_on_nonrt fixture_sampler_nonrt 0 60 100 true).1 = MS_SUCCESS ∧
    ∃ idx, idx < (ms_note_on_nonrt fixture_sampler_nonrt 0 60 100 true).2.1.voices.length ∧
      (ms_note_on_nonrt fixture_sampler_nonrt 0 60 100 true).2.2 =
        some (((ms_note_on_nonrt fixture_sampler_nonrt 0 60 100 true).2.1.voices.getD idx
          (voice_init 0)).voice_id) ∧
      ((ms_note_on_nonrt fixture_sampler_nonrt 0 60 100 true).2.1.voices.getD idx
        (voice_init 0)).active = true ∧
      ((ms_note_on_nonrt fixture_sampler_nonrt 0 60 100 true).2.1.voices.getD idx
        (voice_init 0)).note = 60 :=
  C9_note_on_stores_voice_id fixture_sampler_nonrt 0 60 100 (by decide) (by decide)

/-! ### Envelope claims (C3, C10) -/

lemma clamp01_of_le (x : ℚ) (h0 : 0 ≤ x) (h1 : x ≤ 1) : clamp01 x = x := by
  unfold clamp01
  rw [if_neg (not_lt.2 h0), if_neg (not_lt.2 h1)]

lemma clamp01_nonpos (x : ℚ) (h : x ≤ 0) : clamp01 x = 0 := by
  unfold clamp01
  by_cases hx : x < 0
  · rw [if_pos hx]
  · have hx0 : x = 0 := le_antisymm h (not_lt.1 hx)
    subst hx0
    norm_num

/-- In Sustain with the level already at the sustain level, every
`envelope_process` call outputs exactly the sustain level and leaves
the state unchanged. -/
lemma envelope_sustain_run (st : envelope_stage_t) (lvl rate : ℚ)
    (ps : ms_envelope_t) (ss sp : Nat)
    (hst : st = .ENV_SUSTAIN) (hl : lvl = ps.sustain_level)
    (h0 : 0 ≤ ps.sustain_level) (h1 : ps.sustain_level ≤ 1) (k : Nat) :
    (envelope_run ⟨st, lvl, rate, ps, ss, sp⟩ k).1 =
      List.replicate k ps.sustain_level := by
  subst hst
  subst hl
  have hstep : envelope_process ⟨.ENV_SUSTAIN, ps.sustain_level, rate, ps, ss, sp⟩ =
      (ps.sustain_level, ⟨.ENV_SUSTAIN, ps.sustain_level, rate, ps, ss, sp⟩) := by
    unfold envelope_process
    simp only []
    rw [clamp01_of_le _ h0 h1]
  induction k with
  | zero => rfl
  | succ k ih =>
    rw [envelope_run, hstep]
    simp only []
    rw [ih, List.replicate_succ]

/-- C3: a freshly initialised and triggered envelope outputs exactly 0
on its first `process()` call (both the portable and the RT variant);
the call that completes Decay moves to Sustain with the level set to
the configured sustain level; and from then on every call made while
the stage is Sustain outputs exactly the sustain level. -/
theorem C3_envelope_first_zero_and_sustain (rate : ℚ) (params : ms_envelope_t)
    (h0 : 0 ≤ params.sustain_level) (h1 : params.sustain_level ≤ 1) :
    (envelope_process (envelope_trigger (envelope_init rate params))).1 = 0 ∧
    (RT.envelope_process (RT.envelope_trigger (RT.envelope_init rate params))).1 = 0 ∧
    (∀ lvl srate ss sp, sp ≥ ss →
      (envelope_process ⟨.ENV_DECAY, lvl, srate, params, ss, sp⟩).2.stage =
        .ENV_SUSTAIN ∧
      (envelope_process ⟨.ENV_DECAY, lvl, srate, params, ss, sp⟩).2.current_level =
        params.sustain_level) ∧
    (∀ lvl srate ss sp k, lvl = params.sustain_level →
      (envelope_run ⟨.ENV_SUSTAIN, lvl, srate, params, ss, sp⟩ k).1 =
        List.replicate k params.sustain_level) := by
  refine ⟨?_, ?_, ?_, ?_⟩
  · rfl
  · rfl
  · intro lvl srate ss sp hge
    have hnot : ¬ sp < ss := by omega
    unfold envelope_process
    simp only [hnot, if_false]
    exact ⟨trivial, clamp01_of_le _ h0 h1⟩
  · intro lvl srate ss sp k hl
    exact envelope_sustain_run _ _ _ _ _ _ rfl hl h0 h1 k

/-- C3 witness: a concrete envelope at rate 100, sustain 0.7. -/
theorem C3_envelope_witness :
    (envelope_process (envelope_trigger
        (envelope_init 100 ⟨1/100, 1/100, 7/10, 1/100⟩))).1 = 0 ∧
    (envelope_run ⟨.ENV_SUSTAIN, 7/10, 100, ⟨1/100, 1/100, 7/10, 1/100⟩, 1, 1⟩ 3).1 =
      List.replicate 3 (7/10) := by
  have h := C3_envelope_first_zero_and_sustain 100 ⟨1/100, 1/100, 7/10, 1/100⟩
    (by norm_num) (by norm_num)
  exact ⟨h.1, h.2.2.2 (7/10) 100 1 1 3 rfl⟩

/-- Bridge from the `Rat.floor` used in `msToSamples` to `⌊·⌋`. -/
lemma rat_floor_eq (q : ℚ) : q.floor = ⌊q⌋ := rfl

lemma c10_release_state : envelope_release (envelope_init 4 ⟨0, 0, 7/10, 1⟩) =
    ⟨.ENV_RELEASE, 0, 4, ⟨0, 0, 7/10, 1⟩, 4, 0⟩ := by
  unfold envelope_release envelope_init msToSamples
  rw [rat_floor_eq]
  norm_num <;> omega

lemma c10_step1 : envelope_process ⟨.ENV_RELEASE, 0, 4, ⟨0, 0, 7/10, 1⟩, 4, 0⟩ =
    (0, ⟨.ENV_RELEASE, 7/10, 4, ⟨0, 0, 7/10, 1⟩, 4, 1⟩) := by
  unfold envelope_process clamp01
  norm_num

lemma c10_step2 : (envelope_process ⟨.ENV_RELEASE, 7/10, 4, ⟨0, 0, 7/10, 1⟩, 4, 1⟩).1 =
    7/10 := rfl

/-- C10 counterexample: for the portable envelope (`core/envelope.c`),
releasing an Idle envelope (level 0, sustain 0.7, one-second release at
rate 4) makes the second `process()` call output 0.7, not 0: the
Release branch recomputes the level from the configured sustain level
rather than the instantaneous (zero) level. -/
theorem C10_counterexample :
    (envelope_run (envelope_release (envelope_init 4 ⟨0, 0, 7/10, 1⟩)) 2).1 ≠
      List.replicate 2 (0 : ℚ) ∧
    ((envelope_run (envelope_release (envelope_init 4 ⟨0, 0, 7/10, 1⟩)) 2).1).getD 1 0 =
      7/10 := by
  have hrun : (envelope_run (envelope_release (envelope_init 4 ⟨0, 0, 7/10, 1⟩)) 2).1 =
      [0, 7/10] := by
    rw [c10_release_state, envelope_run, c10_step1]
    simp only []
    rw [envelope_run]
    simp only [c10_step2]
    rfl
  rw [hrun]
  constructor
  · simp only [List.replicate, ne_eq, List.cons.injEq, and_false, not_false_iff]
    norm_num
  · rfl

/-- C10 (amended): for the RT envelope (`internal_rt.h`), releasing an
Idle envelope (level 0) yields only outputs equal to 0 in all
subsequent `process()` calls (the level only ever decreases from 0 and
is clamped at 0), provided the precomputed release coefficient is
nonnegative, as `envelope_init` guarantees for a nonnegative sustain
level. -/
theorem C10_release_idle_silent_rt (e : RT.envelope_generator_t)
    (hst : e.stage = .ENV_IDLE) (hl : e.current_level = 0)
    (hc : 0 ≤ e.release_coeff) (k : Nat) :
    (RT.envelope_run (RT.envelope_release e) k).1 = List.replicate k 0 := by
  have key : ∀ (k : Nat) (e' : RT.envelope_generator_t), e'.current_level = 0 →
      0 ≤ e'.release_coeff →
      (e'.stage = .ENV_RELEASE ∨ e'.stage = .ENV_IDLE) →
      (RT.envelope_run e' k).1 = List.replicate k 0 := by
    intro k
    induction k with
    | zero => intro e' _ _ _; rfl
    | succ k ih =>
      intro e' hl' hc' hstage
      obtain ⟨st, lvl, rate, ps, ac, dc, rc, ss, sp⟩ := e'
      simp only at hl' hc'
      subst hl'
      rcases hstage with hst' | hst' <;> simp only at hst' <;> subst hst'
      · by_cases hlt : sp < ss
        · have hstep : RT.envelope_process ⟨.ENV_RELEASE, 0, rate, ps, ac, dc, rc, ss, sp⟩ =
              (0, ⟨.ENV_RELEASE, 0, rate, ps, ac, dc, rc, ss, sp + 1⟩) := by
            unfold RT.envelope_process
            simp only [hlt, if_true, if_pos]
            rw [clamp01_nonpos]
            linarith
          rw [RT.envelope_run, hstep]
          simp only []
          rw [ih _ rfl hc' (Or.inl rfl), List.replicate_succ]
        · have hstep : RT.envelope_process ⟨.ENV_RELEASE, 0, rate, ps, ac, dc, rc, ss, sp⟩ =
              (0, ⟨.ENV_IDLE, 0, rate, ps, ac, dc, rc, ss, sp⟩) := by
            unfold RT.envelope_process
            simp only [hlt, if_false]
            rw [clamp01_nonpos _ le_rfl]
          rw [RT.envelope_run, hstep]
          simp only []
          rw [ih _ rfl hc' (Or.inr rfl), List.replicate_succ]
      · have hstep : RT.envelope_process ⟨.ENV_IDLE, 0, rate, ps, ac, dc, rc, ss, sp⟩ =
            (0, ⟨.ENV_IDLE, 0, rate, ps, ac, dc, rc, ss, sp⟩) := rfl
        rw [RT.envelope_run, hstep]
        simp only []
        rw [ih _ rfl hc' (Or.inr rfl), List.replicate_succ]
  refine key k (RT.envelope_release e) ?_ ?_ (Or.inl rfl)
  · simpa [RT.envelope_release] using hl
  · simpa [RT.envelope_release] using hc

/-- C10 witness: a concrete RT envelope, sustain 0.7, released from
Idle, stays silent for three calls. -/
theorem C10_release_idle_silent_rt_witness :
    (RT.envelope_run (RT.envelope_release (RT.envelope_init 4 ⟨0, 0, 7/10, 1⟩)) 3).1 =
      List.replicate 3 0 := by
  have hms : msToSamples 1 4 = 4 := by
    unfold msToSamples
    rw [rat_floor_eq, show ((1 : ℚ) * 4) = 4 by norm_num,
      show ⌊(4 : ℚ)⌋ = 4 by norm_num]
    rfl
  refine C10_release_idle_silent_rt (RT.envelope_init 4 ⟨0, 0, 7/10, 1⟩) rfl rfl ?_ 3
  show (0 : ℚ) ≤ (RT.envelope_init 4 ⟨0, 0, 7/10, 1⟩).release_coeff
  simp only [RT.envelope_init, hms]
  norm_num

/-! ### Voice end-of-sample handling (claim C4) -/

/-- A deactivated loop state is left untouched for any number of
remaining frames (the `break` paths of `voice_process`). -/
lemma vp_loop_inactive (sample : ms_sample_data_t) (speed vgain : ℚ) (channels : Nat) :
    ∀ (m j : Nat) (st : vp_state), st.active = false →
      vp_loop sample speed vgain channels m j st = st := by
  intro m j st h
  cases m with
  | zero => rfl
  | succ m => rw [vp_loop]; simp [h]

/-- C4: per frame, once the playback position has reached the sample's
frame count: with looping enabled and `loop_end > loop_start` the frame
is processed exactly as if the position had been set to `loop_start`;
otherwise the loop returns immediately with the voice deactivated and
the output unchanged; an inactive state is never processed further; and
`voice_process` on an inactive voice leaves both the output buffer and
the voice untouched. -/
theorem C4_voice_end_of_sample (sample : ms_sample_data_t) (speed vgain : ℚ)
    (channels n i : Nat) (st : vp_state)
    (hact : st.active = true)
    (hend : (sample.num_frames : ℚ) ≤ st.position) :
    ((sample.meta.loop_enabled = true ∧
        sample.meta.loop_start < sample.meta.loop_end) →
      vp_loop sample speed vgain channels (n + 1) i st =
        vp_loop sample speed vgain channels (n + 1) i
          { st with position := (sample.meta.loop_start : ℚ) }) ∧
    (¬ (sample.meta.loop_enabled = true ∧
        sample.meta.loop_start < sample.meta.loop_end) →
      vp_loop sample speed vgain channels (n + 1) i st = { st with active := false }) ∧
    (∀ (m j : Nat) (st' : vp_state), st'.active = false →
      vp_loop sample speed vgain channels m j st' = st') ∧
    (∀ (v : voice_t) (out : List ℚ) (nf ch : Nat), v.active = false →
      voice_process v out nf ch = (out, v)) := by
  refine ⟨?_, ?_, vp_loop_inactive sample speed vgain channels, ?_⟩
  · intro hloop
    obtain ⟨pos, env, out, act⟩ := st
    simp only at hact hend
    subst hact
    rw [vp_loop, vp_loop]
    simp only [not_true, if_false, ite_false, Bool.not_true, Bool.false_eq_true]
    have h1 : (pos ≥ (sample.num_frames : ℚ)) = True := by
      simp [ge_iff_le, hend]
    rcases em ((sample.meta.loop_start : ℚ) ≥ (sample.num_frames : ℚ)) with h2 | h2 <;>
      simp [h1, h2, hloop.1, hloop.2]
  · intro hnoloop
    obtain ⟨pos, env, out, act⟩ := st
    simp only at hact hend
    subst hact
    rw [vp_loop]
    simp [hend, hnoloop, ge_iff_le]
  · intro v out nf ch h
    unfold voice_process
    cases hs : v.sample with
    | none => rfl
    | some sample' => simp [h]

/-- C4 witness: a concrete non-looping sample whose position is past
the end deactivates the voice without touching the output. -/
theorem C4_voice_end_of_sample_witness :
    vp_loop c6_sample 1 1 1 1 0 ⟨5, c6_env 0, [], true⟩ = ⟨5, c6_env 0, [], false⟩ :=
  (C4_voice_end_of_sample c6_sample 1 1 1 0 0 ⟨5, c6_env 0, [], true⟩ rfl
    (by norm_num [c6_sample])).2.1 (by decide)

/-! ### Voice allocation and stealing (claim C5) -/

lemma findIdx_first {α : Type} (p : α → Bool) :
    ∀ (l : List α) (k : Nat) (hk : k < l.length),
    (∀ j (hj : j < k), p (l.get ⟨j, lt_trans hj hk⟩) = false) →
    p (l.get ⟨k, hk⟩) = true → l.findIdx p = k := by
  intro l
  induction l with
  | nil => intro k hk; simp at hk
  | cons a l ih =>
    intro k hk hbefore hat
    cases k with
    | zero =>
      simp only [List.get] at hat
      simp [List.findIdx_cons, hat]
    | succ k =>
      have hpa : p a = false := hbefore 0 (Nat.succ_pos k)
      have hk' : k < l.length := by simpa using hk
      have := ih k hk' (fun j hj => hbefore (j + 1) (by omega)) hat
      simp [List.findIdx_cons, hpa, this]

lemma findIdx?_first {α : Type} (p : α → Bool) (l : List α) (k : Nat)
    (hk : k < l.length)
    (hbefore : ∀ j (hj : j < k), p (l.get ⟨j, lt_trans hj hk⟩) = false)
    (hat : p (l.get ⟨k, hk⟩) = true) : l.findIdx? p = some k :=
  List.findIdx?_eq_some_iff_findIdx_eq.mpr ⟨hk, findIdx_first p l k hk hbefore hat⟩

lemma c5_pool_length (sample : ms_sample_data_t) (envp : ms_envelope_t)
    (instid P : Nat) (es : List (Nat × Nat)) :
    (c5_pool sample envp instid P es).length = P := by
  simp [c5_pool]

lemma c5_pool_getElem? (sample : ms_sample_data_t) (envp : ms_envelope_t)
    (instid P : Nat) (es : List (Nat × Nat)) (j : Nat) (hj : j < P) :
    (c5_pool sample envp instid P es)[j]? =
      some (match es[j]? with
            | some e => c5_trig sample envp instid j e
            | none => voice_init (j + 1)) := by
  simp [c5_pool, List.getElem?_map, List.getElem?_range hj]

lemma c5_trig_active (sample : ms_sample_data_t) (envp : ms_envelope_t)
    (instid i : Nat) (e : Nat × Nat) :
    (c5_trig sample envp instid i e).active = true := rfl

lemma pool_note_on_seq_append (sample : ms_sample_data_t) (envp : ms_envelope_t)
    (instid : Nat) :
    ∀ (es : List (Nat × Nat)) (pool : List voice_t) (ev : Nat × Nat),
    pool_note_on_seq sample envp instid pool (es ++ [ev]) =
      (pool_note_on (pool_note_on_seq sample envp instid pool es)
        sample ev.1 ev.2 envp instid).1 := by
  intro es
  induction es with
  | nil => intro pool ev; rfl
  | cons e es ih =>
    intro pool ev
    rw [List.cons_append, pool_note_on_seq, ih, pool_note_on_seq]


lemma alloc_c5_pool_partial (sample : ms_sample_data_t) (envp : ms_envelope_t)
    (instid P : Nat) (es : List (Nat × Nat)) (hlt : es.length < P) :
    alloc_voice_index (c5_pool sample envp instid P es) = es.length := by
  have hk : es.length < (c5_pool sample envp instid P es).length := by
    rw [c5_pool_length]; exact hlt
  have hfind : (c5_pool sample envp instid P es).findIdx? (fun v => ¬ v.active) =
      some es.length := by
    refine findIdx?_first _ _ _ hk ?_ ?_
    · intro j hj
      have hjP : j < P := by omega
      have h2 : es[j]? = some (es.get ⟨j, hj⟩) := by
        rw [List.getElem?_eq_getElem hj, List.get_eq_getElem]
      have h3 : (c5_pool sample envp instid P es)[j]? =
          some (c5_trig sample envp instid j (es.get ⟨j, hj⟩)) := by
        rw [c5_pool_getElem? sample envp instid P es j hjP, h2]
      have h4 : (c5_pool sample envp instid P es)[j]? =
          some ((c5_pool sample envp instid P es).get ⟨j, lt_trans hj hk⟩) := by
        rw [List.getElem?_eq_getElem (lt_trans hj hk), List.get_eq_getElem]
      rw [h4] at h3
      rw [Option.some_inj.mp h3]
      simp [c5_trig_active]
    · have hP : es.length < P := hlt
      have h2 : es[es.length]? = none := by simp
      have h3 : (c5_pool sample envp instid P es)[es.length]? =
          some (voice_init (es.length + 1)) := by
        rw [c5_pool_getElem? sample envp instid P es es.length hP, h2]
      have h4 : (c5_pool sample envp instid P es)[es.length]? =
          some ((c5_pool sample envp instid P es).get ⟨es.length, hk⟩) := by
        rw [List.getElem?_eq_getElem hk, List.get_eq_getElem]
      rw [h4] at h3
      rw [Option.some_inj.mp h3]
      rfl
  unfold alloc_voice_index find_inactive
  rw [hfind]
  rfl

lemma alloc_c5_pool_full (sample : ms_sample_data_t) (envp : ms_envelope_t)
    (instid P : Nat) (es : List (Nat × Nat)) (hlen : P ≤ es.length) :
    alloc_voice_index (c5_pool sample envp instid P es) = 0 := by
  have hfind : (c5_pool sample envp instid P es).findIdx? (fun v => ¬ v.active) =
      none := by
    rw [List.findIdx?_eq_none_iff]
    intro v hv
    rcases List.mem_map.mp hv with ⟨i, hi, rfl⟩
    have hiP : i < P := List.mem_range.mp hi
    have hie : i < es.length := by omega
    have : es[i]? = some (es.get ⟨i, hie⟩) := by
      rw [List.getElem?_eq_getElem hie, List.get_eq_getElem]
    rw [this]
    simp [c5_trig_active]
  unfold alloc_voice_index find_inactive
  rw [hfind]
  rfl


lemma pool_fill (sample : ms_sample_data_t) (envp : ms_envelope_t) (instid : Nat)
    (P : Nat) : ∀ (es : List (Nat × Nat)), es.length ≤ P →
    pool_note_on_seq sample envp instid (initial_pool P) es =
      c5_pool sample envp instid P es := by
  intro es
  induction es using List.reverseRecOn with
  | nil =>
    intro _
    unfold pool_note_on_seq c5_pool initial_pool
    simp
  | append_singleton es ev ih =>
    intro hlen
    have hes : es.length ≤ P := by
      simp only [List.length_append, List.length_singleton] at hlen; omega
    have hlt : es.length < P := by
      simp only [List.length_append, List.length_singleton] at hlen; omega
    rw [pool_note_on_seq_append, ih hes]
    have halloc := alloc_c5_pool_partial sample envp instid P es hlt
    have hgetD : (c5_pool sample envp instid P es).getD es.length (voice_init 0) =
        voice_init (es.length + 1) := by
      rw [List.getD_eq_getElem?_getD,
        c5_pool_getElem? sample envp instid P es es.length hlt]
      simp
    rw [pool_note_on, halloc, hgetD]
    refine List.ext_getElem? ?_
    intro j
    by_cases hjP : j < P
    · rcases Nat.lt_trichotomy j es.length with hj | hj | hj
      · rw [List.getElem?_set_ne (by omega),
          c5_pool_getElem? sample envp instid P es j hjP,
          c5_pool_getElem? sample envp instid P (es ++ [ev]) j hjP,
          List.getElem?_append_left hj]
      · subst hj
        rw [List.getElem?_set_self (by rw [c5_pool_length]; omega),
          c5_pool_getElem? sample envp instid P (es ++ [ev]) es.length hjP,
          List.getElem?_concat_length]
        rfl
      · rw [List.getElem?_set_ne (by omega),
          c5_pool_getElem? sample envp instid P es j hjP,
          c5_pool_getElem? sample envp instid P (es ++ [ev]) j hjP]
        have h1 : es[j]? = none := by
          rw [List.getElem?_eq_none]; omega
        have h2 : (es ++ [ev])[j]? = none := by
          rw [List.getElem?_eq_none]; simp; omega
        rw [h1, h2]
    · have h2 : (c5_pool sample envp instid P (es ++ [ev]))[j]? = none :=
        List.getElem?_eq_none (by rw [c5_pool_length]; omega)
      rw [h2]
      exact List.getElem?_eq_none (by rw [List.length_set, c5_pool_length]; omega)


/-- C5: dispatching `maxPolyphony + 1` note-on events (distinct notes,
each resolving to a sample) on an all-idle pool of size
`P = maxPolyphony ≥ 1` leaves exactly `P` voices active (every slot is
active and the pool length is `P`); the event that finds no inactive
slot steals pool index 0 (the allocation index is 0 once the first `P`
events have filled the pool); slot 0 then holds the newest note in
place of its prior one, while slots 1..P-1 keep their notes. -/
theorem C5_polyphony_steal (sample : ms_sample_data_t) (envp : ms_envelope_t)
    (instid P : Nat) (hP : 1 ≤ P) (es : List (Nat × Nat)) (ev : Nat × Nat)
    (hlen : es.length = P)
    (hdistinct : ((es ++ [ev]).map Prod.fst).Nodup) :
    (pool_note_on_seq sample envp instid (initial_pool P) (es ++ [ev])).length = P ∧
    (∀ j, j < P →
      ((pool_note_on_seq sample envp instid (initial_pool P) (es ++ [ev])).getD j
        (voice_init 0)).active = true) ∧
    alloc_voice_index (pool_note_on_seq sample envp instid (initial_pool P) es) = 0 ∧
    ((pool_note_on_seq sample envp instid (initial_pool P) (es ++ [ev])).getD 0
      (voice_init 0)).note = ev.1 ∧
    (∀ j, 1 ≤ j → j < P →
      ((pool_note_on_seq sample envp instid (initial_pool P) (es ++ [ev])).getD j
        (voice_init 0)).note = (es.getD j (0, 0)).1) := by
  have hfill : pool_note_on_seq sample envp instid (initial_pool P) es =
      c5_pool sample envp instid P es := pool_fill sample envp instid P es (le_of_eq hlen)
  have halloc0 : alloc_voice_index (c5_pool sample envp instid P es) = 0 :=
    alloc_c5_pool_full sample envp instid P es (le_of_eq hlen.symm)
  have hfinal : pool_note_on_seq sample envp instid (initial_pool P) (es ++ [ev]) =
      (c5_pool sample envp instid P es).set 0
        { voice_trigger ((c5_pool sample envp instid P es).getD 0 (voice_init 0))
            sample ev.1 ev.2 envp with instrument := instid } := by
    rw [pool_note_on_seq_append, hfill, pool_note_on, halloc0]
  have hlenP : (c5_pool sample envp instid P es).length = P :=
    c5_pool_length sample envp instid P es
  have hslotj : ∀ (j : Nat) (hj : j < P), 0 < j →
      ((c5_pool sample envp instid P es).set 0
        { voice_trigger ((c5_pool sample envp instid P es).getD 0 (voice_init 0))
            sample ev.1 ev.2 envp with instrument := instid })[j]? =
        some (c5_trig sample envp instid j (es.get ⟨j, by omega⟩)) := by
    intro j hj hj0
    rw [List.getElem?_set_ne (by omega), c5_pool_getElem? sample envp instid P es j hj,
      List.getElem?_eq_getElem (show j < es.length by omega), List.get_eq_getElem]
  refine ⟨?_, ?_, ?_, ?_, ?_⟩
  · rw [hfinal, List.length_set, hlenP]
  · intro j hj
    rw [hfinal, List.getD_eq_getElem?_getD]
    by_cases hj0 : j = 0
    · subst hj0
      rw [List.getElem?_set_self (by rw [hlenP]; omega)]
      rfl
    · rw [hslotj j hj (by omega)]
      rfl
  · rw [hfill]; exact halloc0
  · rw [hfinal, List.getD_eq_getElem?_getD,
      List.getElem?_set_self (by rw [hlenP]; omega)]
    rfl
  · intro j hj1 hj
    rw [hfinal, List.getD_eq_getElem?_getD, hslotj j hj (by omega)]
    have : es.getD j (0, 0) = es.get ⟨j, hlen ▸ hj⟩ := by
      rw [List.getD_eq_getElem?_getD,
        List.getElem?_eq_getElem (show j < es.length by omega), List.get_eq_getElem]
      rfl
    rw [this]
    rfl

/-- C5 witness: two notes fill a 2-voice pool; the third steals slot 0. -/
theorem C5_polyphony_steal_witness :
    alloc_voice_index (pool_note_on_seq c6_sample ⟨0, 0, 1, 0⟩ 7 (initial_pool 2)
      [(60, 100), (62, 101)]) = 0 ∧
    ((pool_note_on_seq c6_sample ⟨0, 0, 1, 0⟩ 7 (initial_pool 2)
      ([(60, 100), (62, 101)] ++ [(64, 102)])).getD 0 (voice_init 0)).note = 64 := by
  have h := C5_polyphony_steal c6_sample ⟨0, 0, 1, 0⟩ 7 2 (by decide)
    [(60, 100), (62, 101)] (64, 102) (by decide) (by decide)
  exact ⟨h.2.2.1, h.2.2.2.1⟩

/-! ### Frequency table refinement (claim C7) -/

set_option maxRecDepth 4000 in
lemma c7_table_ratio : voice_trigger_speed 1 0 1 = 8.662 / 8.176 := by
  unfold voice_trigger_speed midi_note_to_frequency MIDI_FREQ_TABLE
  norm_num

lemma c7_exact_ratio : voice_trigger_speed_exact 1 0 1 = (2 : ℝ) ^ ((1 : ℝ) / 12) := by
  unfold voice_trigger_speed_exact midi_note_to_frequency_exact
  push_cast
  rw [mul_one]
  rw [mul_div_mul_left _ _ (by norm_num : (440 : ℝ) ≠ 0)]
  rw [← Real.rpow_sub two_pos]
  norm_num

/-- C7 counterexample: for note 1 against root note 0 (no pitch bend),
the speed computed from the 3-decimal table, `8.662/8.176`, differs
from the equal-tempered ratio `2^(1/12)`: its 12th power is not 2.  The
precomputed table is therefore an approximation, not a semantics-
preserving optimization. -/
theorem C7_counterexample :
    ((voice_trigger_speed 1 0 1 : ℚ) : ℝ) ≠ voice_trigger_speed_exact 1 0 1 := by
  rw [c7_table_ratio, c7_exact_ratio]
  intro heq
  have h12 : (((8.662 / 8.176 : ℚ) : ℝ)) ^ (12 : ℕ) = 2 := by
    rw [heq, ← Real.rpow_natCast ((2:ℝ) ^ ((1:ℝ)/12)) 12,
      ← Real.rpow_mul (by norm_num : (0:ℝ) ≤ 2)]
    norm_num
  have hq : ((8.662 / 8.176 : ℚ) ^ (12 : ℕ)) = (2 : ℚ) := by
    exact_mod_cast h12
  norm_num at hq


set_option maxRecDepth 8000 in
lemma freq_table_pos (q : ℚ) (hq : q ∈ MIDI_FREQ_TABLE) : 0 < q := by
  fin_cases hq <;> norm_num


set_option maxRecDepth 8000 in
/-- Every table frequency at a valid note number is positive. -/
lemma freq_pos_of_le (note : Nat) (hnote : note ≤ 127) :
    0 < midi_note_to_frequency note := by
  have hlen : MIDI_FREQ_TABLE.length = 128 := by decide
  have hmem : midi_note_to_frequency note ∈ MIDI_FREQ_TABLE := by
    unfold midi_note_to_frequency
    rw [Nat.mod_eq_of_lt (by omega)]
    have hnl : note < MIDI_FREQ_TABLE.length := by omega
    rw [List.getD_eq_getElem?_getD, List.getElem?_eq_getElem hnl]
    exact List.getElem_mem hnl
  exact freq_table_pos _ hmem

/-- At `note = root` the table-based speed is exactly the pitch-bend
multiplier. -/
lemma voice_trigger_speed_root (note : Nat) (hnote : note ≤ 127) (bend : ℚ) :
    voice_trigger_speed note note bend = bend := by
  unfold voice_trigger_speed
  rw [div_self (ne_of_gt (freq_pos_of_le note hnote)), one_mul]

/-- C7 (amended): `voice_trigger` sets the playback speed to the
table-based formula `freq(note)/freq(root) * pitch_bend_multiplier`;
when the note equals the sample's root note this agrees exactly with
the equal-tempered relation (both reduce to the pitch-bend multiplier);
for distinct notes the rounded table deviates (see the counterexample). -/
theorem C7_table_speed_at_root (note : Nat) (hnote : note ≤ 127) (bend : ℚ) :
    (∀ (v : voice_t) (sample : ms_sample_data_t) (vel : Nat) (envp : ms_envelope_t),
      (voice_trigger v sample note vel envp).playback_speed =
        voice_trigger_speed note sample.meta.root_note v.pitch_bend_multiplier) ∧
    voice_trigger_speed note note bend = bend ∧
    voice_trigger_speed_exact note note bend = (bend : ℝ) := by
  refine ⟨fun v sample vel envp => rfl, voice_trigger_speed_root note hnote bend, ?_⟩
  unfold voice_trigger_speed_exact
  have hpos' : (0 : ℝ) < midi_note_to_frequency_exact note := by
    unfold midi_note_to_frequency_exact
    positivity
  rw [div_self (ne_of_gt hpos'), one_mul]

/-- C7 witness: at note 60 on a root-60 sample, the table speed is
exactly the pitch-bend multiplier. -/
theorem C7_table_speed_at_root_witness : voice_trigger_speed 60 60 (3/2) = 3/2 :=
  (C7_table_speed_at_root 60 (by decide) (3/2)).2.1

/-! ### Sample resolution (claim C2) -/

lemma find_scan_all_invariant (note : Nat) :
    ∀ (l : List ms_sample_data_t) (b0 : Option ms_sample_data_t) (m0 : Nat),
    (l.foldl (find_scan_all note) (b0, m0) = (b0, m0) ∧
      ∀ s ∈ l, m0 ≤ note_distance note s.meta.root_note) ∨
    (∃ s ∈ l, (l.foldl (find_scan_all note) (b0, m0)).1 = some s ∧
      (l.foldl (find_scan_all note) (b0, m0)).2 = note_distance note s.meta.root_note ∧
      (l.foldl (find_scan_all note) (b0, m0)).2 < m0 ∧
      ∀ t ∈ l, (l.foldl (find_scan_all note) (b0, m0)).2 ≤
        note_distance note t.meta.root_note) := by
  intro l
  induction l with
  | nil =>
    intro b0 m0
    left
    exact ⟨rfl, by simp⟩
  | cons s l ih =>
    intro b0 m0
    rw [List.foldl_cons]
    by_cases hlt : note_distance note s.meta.root_note < m0
    · have hstep : find_scan_all note (b0, m0) s =
          (some s, note_distance note s.meta.root_note) := by
        unfold find_scan_all
        rw [if_pos hlt]
      rw [hstep]
      rcases ih (some s) (note_distance note s.meta.root_note) with ⟨heq, hmin⟩ | h
      · right
        refine ⟨s, List.mem_cons_self s l, ?_, ?_, ?_, ?_⟩
        · rw [heq]
        · rw [heq]
        · rw [heq]; exact hlt
        · intro t ht
          rw [heq]
          rcases List.mem_cons.mp ht with rfl | ht
          · exact le_refl _
          · exact hmin t ht
      · rcases h with ⟨u, hu, h1, h2, h3, h4⟩
        right
        refine ⟨u, List.mem_cons_of_mem s hu, h1, h2, by omega, ?_⟩
        intro t ht
        rcases List.mem_cons.mp ht with rfl | ht
        · omega
        · exact h4 t ht
    · have hstep : find_scan_all note (b0, m0) s = (b0, m0) := by
        unfold find_scan_all
        rw [if_neg hlt]
      rw [hstep]
      rcases ih b0 m0 with ⟨heq, hmin⟩ | h
      · left
        refine ⟨heq, ?_⟩
        intro t ht
        rcases List.mem_cons.mp ht with rfl | ht
        · omega
        · exact hmin t ht
      · rcases h with ⟨u, hu, h1, h2, h3, h4⟩
        right
        refine ⟨u, List.mem_cons_of_mem s hu, h1, h2, h3, ?_⟩
        intro t ht
        rcases List.mem_cons.mp ht with rfl | ht
        · omega
        · exact h4 t ht


lemma find_scan_vel_invariant (note velocity : Nat) :
    ∀ (l : List ms_sample_data_t) (b0 : Option ms_sample_data_t) (m0 : Nat),
    (l.foldl (find_scan_vel note velocity) (b0, m0) = (b0, m0) ∧
      ∀ s ∈ l, vel_matches velocity s →
        m0 ≤ note_distance note s.meta.root_note) ∨
    (∃ s ∈ l, (l.foldl (find_scan_vel note velocity) (b0, m0)).1 = some s ∧
      vel_matches velocity s ∧
      (l.foldl (find_scan_vel note velocity) (b0, m0)).2 =
        note_distance note s.meta.root_note ∧
      (l.foldl (find_scan_vel note velocity) (b0, m0)).2 < m0 ∧
      ∀ t ∈ l, vel_matches velocity t →
        (l.foldl (find_scan_vel note velocity) (b0, m0)).2 ≤
          note_distance note t.meta.root_note) := by
  intro l
  induction l with
  | nil =>
    intro b0 m0
    left
    exact ⟨rfl, by simp⟩
  | cons s l ih =>
    intro b0 m0
    rw [List.foldl_cons]
    by_cases hvel : s.meta.velocity_low ≤ velocity ∧ velocity ≤ s.meta.velocity_high
    · by_cases hlt : note_distance note s.meta.root_note < m0
      · have hstep : find_scan_vel note velocity (b0, m0) s =
            (some s, note_distance note s.meta.root_note) := by
          unfold find_scan_vel
          rw [if_pos hvel, if_pos hlt]
        rw [hstep]
        rcases ih (some s) (note_distance note s.meta.root_note) with ⟨heq, hmin⟩ | h
        · right
          refine ⟨s, List.mem_cons_self s l, ?_, hvel, ?_, ?_, ?_⟩
          · rw [heq]
          · rw [heq]
          · rw [heq]; exact hlt
          · intro t ht htv
            rw [heq]
            rcases List.mem_cons.mp ht with rfl | ht
            · exact le_refl _
            · exact hmin t ht htv
        · rcases h with ⟨u, hu, h1, huv, h2, h3, h4⟩
          right
          refine ⟨u, List.mem_cons_of_mem s hu, h1, huv, h2, by omega, ?_⟩
          intro t ht htv
          rcases List.mem_cons.mp ht with rfl | ht
          · omega
          · exact h4 t ht htv
      · have hstep : find_scan_vel note velocity (b0, m0) s = (b0, m0) := by
          unfold find_scan_vel
          rw [if_pos hvel, if_neg hlt]
        rw [hstep]
        rcases ih b0 m0 with ⟨heq, hmin⟩ | h
        · left
          refine ⟨heq, ?_⟩
          intro t ht htv
          rcases List.mem_cons.mp ht with rfl | ht
          · omega
          · exact hmin t ht htv
        · rcases h with ⟨u, hu, h1, huv, h2, h3, h4⟩
          right
          refine ⟨u, List.mem_cons_of_mem s hu, h1, huv, h2, h3, ?_⟩
          intro t ht htv
          rcases List.mem_cons.mp ht with rfl | ht
          · omega
          · exact h4 t ht htv
    · have hstep : find_scan_vel note velocity (b0, m0) s = (b0, m0) := by
        unfold find_scan_vel
        rw [if_neg hvel]
      rw [hstep]
      rcases ih b0 m0 with ⟨heq, hmin⟩ | h
      · left
        refine ⟨heq, ?_⟩
        intro t ht htv
        rcases List.mem_cons.mp ht with rfl | ht
        · exact absurd htv hvel
        · exact hmin t ht htv
      · rcases h with ⟨u, hu, h1, huv, h2, h3, h4⟩
        right
        refine ⟨u, List.mem_cons_of_mem s hu, h1, huv, h2, h3, ?_⟩
        intro t ht htv
        rcases List.mem_cons.mp ht with rfl | ht
        · exact absurd htv hvel
        · exact h4 t ht htv


lemma note_distance_le_127 (note root : Nat) (hn : note ≤ 127) (hr : root ≤ 127) :
    note_distance note root ≤ 127 := by
  unfold note_distance
  omega

/-- C2: for notes and velocities in 0..127 (and root notes in range,
per the data-model invariant), `instrument_find_sample` returns a
sample whose velocity range contains the velocity with minimal note
distance among velocity matches whenever such a sample exists; when no
velocity range matches and the instrument is nonempty it returns a
sample of minimal note distance ignoring velocity; and it returns no
match exactly when the instrument owns zero samples. -/
theorem C2_find_sample (samples : List ms_sample_data_t) (note velocity : Nat)
    (hnote : note ≤ 127) (hvel : velocity ≤ 127)
    (hroots : ∀ s ∈ samples, s.meta.root_note ≤ 127) :
    ((∃ s ∈ samples, vel_matches velocity s) →
      ∃ s ∈ samples, instrument_find_sample samples note velocity = some s ∧
        vel_matches velocity s ∧
        ∀ t ∈ samples, vel_matches velocity t →
          note_distance note s.meta.root_note ≤ note_distance note t.meta.root_note) ∧
    ((∀ s ∈ samples, ¬ vel_matches velocity s) → samples ≠ [] →
      ∃ s ∈ samples, instrument_find_sample samples note velocity = some s ∧
        ∀ t ∈ samples,
          note_distance note s.meta.root_note ≤ note_distance note t.meta.root_note) ∧
    (instrument_find_sample samples note velocity = none ↔ samples = []) := by
  have hpart1 : (∃ s ∈ samples, vel_matches velocity s) →
      ∃ s ∈ samples, instrument_find_sample samples note velocity = some s ∧
        vel_matches velocity s ∧
        ∀ t ∈ samples, vel_matches velocity t →
          note_distance note s.meta.root_note ≤ note_distance note t.meta.root_note := by
    rintro ⟨w, hw, hwv⟩
    rcases find_scan_vel_invariant note velocity samples none 128 with ⟨_, hmin⟩ | h
    · have h1 := hmin w hw hwv
      have h2 := note_distance_le_127 note w.meta.root_note hnote (hroots w hw)
      omega
    · rcases h with ⟨u, hu, h1, huv, h2, h3, h4⟩
      refine ⟨u, hu, ?_, huv, ?_⟩
      · unfold instrument_find_sample
        rw [if_neg]
        · exact h1
        · rw [h1]
          simp
      · intro t ht htv
        have := h4 t ht htv
        omega
  have hpart2 : (∀ s ∈ samples, ¬ vel_matches velocity s) → samples ≠ [] →
      ∃ s ∈ samples, instrument_find_sample samples note velocity = some s ∧
        ∀ t ∈ samples,
          note_distance note s.meta.root_note ≤ note_distance note t.meta.root_note := by
    intro hnone hne
    rcases find_scan_vel_invariant note velocity samples none 128 with ⟨heq, _⟩ | h
    · have hfind : instrument_find_sample samples note velocity =
          (samples.foldl (find_scan_all note) (none, 128)).1 := by
        unfold instrument_find_sample
        rw [heq, if_pos]
        exact ⟨rfl, List.length_pos.mpr hne⟩
      rcases find_scan_all_invariant note samples none 128 with ⟨_, hmin2⟩ | h2
      · obtain ⟨s0, hs0⟩ := List.exists_mem_of_ne_nil samples hne
        have h1 := hmin2 s0 hs0
        have h2 := note_distance_le_127 note s0.meta.root_note hnote (hroots s0 hs0)
        omega
      · rcases h2 with ⟨u, hu, h1, h2, h3, h4⟩
        refine ⟨u, hu, ?_, ?_⟩
        · rw [hfind, h1]
        · intro t ht
          have := h4 t ht
          omega
    · rcases h with ⟨u, hu, _, huv, _⟩
      exact absurd huv (hnone u hu)
  refine ⟨hpart1, hpart2, ?_, ?_⟩
  · intro hfind
    by_contra hne
    by_cases hex : ∃ s ∈ samples, vel_matches velocity s
    · rcases hpart1 hex with ⟨s, _, h1, _⟩
      rw [hfind] at h1
      exact Option.noConfusion h1
    · push_neg at hex
      rcases hpart2 hex hne with ⟨s, _, h1, _⟩
      rw [hfind] at h1
      exact Option.noConfusion h1
  · rintro rfl
    rfl

/-- C2 witness: one sample with full velocity range resolves. -/
theorem C2_find_sample_witness :
    ∃ s ∈ [c6_sample], instrument_find_sample [c6_sample] 61 100 = some s ∧
      vel_matches 100 s ∧
      ∀ t ∈ [c6_sample], vel_matches 100 t →
        note_distance 61 s.meta.root_note ≤ note_distance 61 t.meta.root_note :=
  (C2_find_sample [c6_sample] 61 100 (by decide) (by decide) (by decide)).1
    ⟨c6_sample, List.mem_cons_self _ _, by decide⟩

/-! ### Round-trip playback (claim C6) -/

lemma c6_msToSamples_zero : msToSamples 0 44100 = 0 := by
  unfold msToSamples
  rw [show ((0 : ℚ) * 44100) = 0 by norm_num]
  rfl

lemma c6_env_step : ∀ k, envelope_process (c6_env k) = (c6_level k, c6_env (k + 1)) := by
  intro k
  match k with
  | 0 =>
    show envelope_process ⟨.ENV_ATTACK, 0, 44100, c6_params, 1, 0⟩ = (c6_level 0, c6_env 1)
    unfold envelope_process clamp01 c6_level c6_env
    norm_num
  | 1 =>
    show envelope_process ⟨.ENV_ATTACK, 0, 44100, c6_params, 1, 1⟩ = (c6_level 1, c6_env 2)
    unfold envelope_process clamp01 c6_level c6_env c6_params
    rw [c6_msToSamples_zero]
    norm_num
  | 2 =>
    show envelope_process ⟨.ENV_DECAY, 1, 44100, c6_params, 1, 0⟩ = (c6_level 2, c6_env 3)
    unfold envelope_process clamp01 c6_level c6_env c6_params
    norm_num
  | 3 =>
    show envelope_process ⟨.ENV_DECAY, 1, 44100, c6_params, 1, 1⟩ = (c6_level 3, c6_env 4)
    unfold envelope_process clamp01 c6_level c6_env c6_params
    norm_num
  | (j + 4) =>
    show envelope_process ⟨.ENV_SUSTAIN, 1, 44100, c6_params, 1, 1⟩ =
      (c6_level (j + 4), c6_env (j + 5))
    have h1 : c6_level (j + 4) = 1 := by
      unfold c6_level
      rw [if_neg (by omega)]
    have h2 : c6_env (j + 5) = ⟨.ENV_SUSTAIN, 1, 44100, c6_params, 1, 1⟩ := rfl
    rw [h1, h2]
    unfold envelope_process clamp01 c6_params
    norm_num

lemma c6_env_active : ∀ k, envelope_is_active (c6_env k) = true := by
  intro k
  match k with
  | 0 => rfl
  | 1 => rfl
  | 2 => rfl
  | 3 => rfl
  | (j + 4) => rfl

lemma c6_env_trigger : envelope_trigger (envelope_init 44100 c6_params) = c6_env 0 := by
  unfold envelope_trigger envelope_init c6_params c6_env
  rw [show msToSamples 0 44100 = 0 from c6_msToSamples_zero]
  norm_num
  rfl


lemma c6_floor_nat (i : Nat) : ((i : ℚ)).floor.toNat = i := by
  rw [rat_floor_eq, Int.floor_natCast]
  exact Int.toNat_natCast i

lemma c6_vp_loop_spec (sample : ms_sample_data_t)
    (hch : sample.channels = 1) (hlen : sample.data.length = sample.num_frames) :
    ∀ (n i : Nat) (out : List ℚ), i + n ≤ sample.num_frames →
    vp_loop sample 1 1 1 n i ⟨(i : ℚ), c6_env i, out, true⟩ =
      ⟨((i + n : Nat) : ℚ), c6_env (i + n), c6_ref_loop sample.data n i out, true⟩ := by
  intro n
  induction n with
  | zero =>
    intro i out _
    simp [vp_loop, c6_ref_loop]
  | succ n ih =>
    intro i out hin
    have hiL : i < sample.num_frames := by omega
    have hposF : ((i : ℚ) ≥ (sample.num_frames : ℚ)) = False := by
      simp only [ge_iff_le, eq_iff_iff, iff_false, not_le]
      exact_mod_cast hiL
    have hstep : vp_loop sample 1 1 1 (n + 1) i ⟨(i : ℚ), c6_env i, out, true⟩ =
        vp_loop sample 1 1 1 n (i + 1)
          ⟨((i + 1 : Nat) : ℚ), c6_env (i + 1),
           out.set i (out.getD i 0 + sample.data.getD i 0 * c6_level i), true⟩ := by
      rw [vp_loop]
      simp only [not_true, Bool.not_true, Bool.false_eq_true, if_false, ite_false,
        hposF, ite_true, if_true, c6_floor_nat, hch, c6_env_step, c6_env_active,
        list_add_at, sub_self, zero_mul, add_zero, mul_one, Nat.cast_add,
        Nat.cast_one]
    rw [hstep, ih (i + 1) _ (by omega)]
    have h1 : i + 1 + n = i + (n + 1) := by omega
    rw [h1]
    rfl


lemma c6_ref_loop_getElem (data : List ℚ) :
    ∀ (n i : Nat) (out : List ℚ) (j : Nat), i + n ≤ out.length →
    (c6_ref_loop data n i out)[j]? =
      if i ≤ j ∧ j < i + n then some (out.getD j 0 + data.getD j 0 * c6_level j)
      else out[j]? := by
  intro n
  induction n with
  | zero =>
    intro i out j _
    rw [if_neg (by omega)]
    rfl
  | succ n ih =>
    intro i out j hin
    rw [c6_ref_loop]
    have hiL : i < out.length := by omega
    rw [ih (i + 1) _ j (by rw [List.length_set]; omega)]
    by_cases hj : i + 1 ≤ j ∧ j < i + 1 + n
    · rw [if_pos hj, if_pos (by omega)]
      have hne : i ≠ j := by omega
      have hgetD : (out.set i (out.getD i 0 + data.getD i 0 * c6_level i)).getD j 0 =
          out.getD j 0 := by
        rw [List.getD_eq_getElem?_getD, List.getElem?_set_ne hne,
          ← List.getD_eq_getElem?_getD]
      rw [hgetD]
    · rw [if_neg hj]
      by_cases hji : j = i
      · subst hji
        rw [if_pos (by omega), List.getElem?_set_self hiL]
      · rw [if_neg (by omega), List.getElem?_set_ne (by omega)]


lemma c6_voice_process_getElem (sample : ms_sample_data_t)
    (hch : sample.channels = 1) (hlen : sample.data.length = sample.num_frames)
    (v : voice_t) (hva : v.active = true) (hvs : v.sample = some sample)
    (hvsp : v.playback_speed = 1) (hvp : v.playback_position = 0)
    (hvv : v.velocity = 127) (hve : v.envelope = c6_env 0) (j : Nat)
    (hj : j < sample.num_frames) :
    (voice_process v (List.replicate sample.num_frames 0) sample.num_frames 1).1[j]? =
      some (sample.data.getD j 0 * c6_level j) := by
  obtain ⟨va, vid, vn, vv, vs, vp, vsp, ve, vb, vi⟩ := v
  simp only at hva hvs hvsp hvp hvv hve
  subst hva hvs hvsp hvp hvv hve
  unfold voice_process
  simp only [Bool.not_true, Bool.false_eq_true, if_false, ite_false, not_true]
  have hvg : ((127 : Nat) : ℚ) / 127 = 1 := by norm_num
  rw [hvg]
  have hloop := c6_vp_loop_spec sample hch hlen sample.num_frames 0
    (List.replicate sample.num_frames 0) (by omega)
  rw [Nat.cast_zero] at hloop
  rw [hloop]
  simp only []
  rw [c6_ref_loop_getElem sample.data sample.num_frames 0
    (List.replicate sample.num_frames 0) j (by rw [List.length_replicate]; omega)]
  rw [if_pos (by omega)]
  have hrep : (List.replicate sample.num_frames (0 : ℚ)).getD j 0 = 0 := by
    rw [List.getD_eq_getElem?_getD, List.getElem?_replicate]
    simp [hj]
  rw [hrep, zero_add]


/-- C6 (amended): loading a memory sample with known values and reading
back through `voice_process` at note = root (speed 1), velocity 127 and
the all-zero-time sustain-1.0 envelope reproduces each frame as
`data[j] * envelopeLevel(j)`, with zero interpolation error at the
integer positions: every frame from index 2 on equals the input exactly,
while frames 0 and 1 read back 0 (the envelope's one-sample latency and
single Attack sample) — so the round-trip is exact only once the
envelope has reached level 1, not from frame 0 as claimed. -/
theorem C6_roundtrip (data : List ℚ) (root vid : Nat) (hroot : root ≤ 127)
    (j : Nat) (hj : j < data.length) :
    (2 ≤ j →
      (voice_process
        (voice_trigger (voice_init vid)
          ⟨data, data.length, 1, ⟨root, 0, 127, false, 0, 0⟩⟩ root 127 c6_params)
        (List.replicate data.length 0) data.length 1).1[j]? =
        some (data.getD j 0)) ∧
    (j < 2 →
      (voice_process
        (voice_trigger (voice_init vid)
          ⟨data, data.length, 1, ⟨root, 0, 127, false, 0, 0⟩⟩ root 127 c6_params)
        (List.replicate data.length 0) data.length 1).1[j]? = some 0) := by
  have hsp : (voice_trigger (voice_init vid)
      ⟨data, data.length, 1, ⟨root, 0, 127, false, 0, 0⟩⟩ root 127
      c6_params).playback_speed = 1 := by
    show voice_trigger_speed root root 1 = 1
    exact voice_trigger_speed_root root hroot 1
  have henv : (voice_trigger (voice_init vid)
      ⟨data, data.length, 1, ⟨root, 0, 127, false, 0, 0⟩⟩ root 127
      c6_params).envelope = c6_env 0 := c6_env_trigger
  have h := c6_voice_process_getElem
    ⟨data, data.length, 1, ⟨root, 0, 127, false, 0, 0⟩⟩ rfl rfl
    (voice_trigger (voice_init vid)
      ⟨data, data.length, 1, ⟨root, 0, 127, false, 0, 0⟩⟩ root 127 c6_params)
    rfl rfl hsp rfl rfl henv j hj
  constructor
  · intro hj2
    have hlvl : c6_level j = 1 := by
      unfold c6_level
      rw [if_neg (by omega)]
    rw [hlvl, mul_one] at h
    exact h
  · intro hj2
    have hlvl : c6_level j = 0 := by
      unfold c6_level
      rw [if_pos (by omega)]
    rw [hlvl, mul_zero] at h
    exact h

/-- C6 counterexample: playing the constant sample `[1,1,1,1]` at
speed 1, velocity 127, sustain-1.0 zero-time envelope does **not**
reproduce the input: frame 0 reads back 0, not 1, because the envelope
outputs 0 for the first frame by design. -/
theorem C6_counterexample :
    (voice_process (voice_trigger (voice_init 1) c6_sample 60 127 c6_params)
      (List.replicate 4 0) 4 1).1 ≠ [1, 1, 1, 1] := by
  intro heq
  have hsp : (voice_trigger (voice_init 1) c6_sample 60 127 c6_params).playback_speed = 1 := by
    show voice_trigger_speed 60 60 1 = 1
    exact voice_trigger_speed_root 60 (by norm_num) 1
  have henv : (voice_trigger (voice_init 1) c6_sample 60 127 c6_params).envelope =
      c6_env 0 := c6_env_trigger
  have h := c6_voice_process_getElem c6_sample rfl rfl
    (voice_trigger (voice_init 1) c6_sample 60 127 c6_params)
    rfl rfl hsp rfl rfl henv 0 (by norm_num [c6_sample])
  rw [show c6_level 0 = 0 from rfl, mul_zero] at h
  have h2 : (voice_process (voice_trigger (voice_init 1) c6_sample 60 127 c6_params)
      (List.replicate 4 0) 4 1).1[0]? = some 1 := by
    rw [heq]
    rfl
  have h3 : (voice_process (voice_trigger (voice_init 1) c6_sample 60 127 c6_params)
      (List.replicate 4 0) 4 1).1[0]? = some 0 := h
  have : (1 : ℚ) = 0 := by injection h2.symm.trans h3
  norm_num at this

/-- C6 witness: the sample `[2, 3, 5]` reads back exactly at frame 2. -/
theorem C6_roundtrip_witness :
    (voice_process
      (voice_trigger (voice_init 1)
        ⟨[2, 3, 5], ([2, 3, 5] : List ℚ).length, 1, ⟨60, 0, 127, false, 0, 0⟩⟩
        60 127 c6_params)
      (List.replicate ([2, 3, 5] : List ℚ).length 0)
      ([2, 3, 5] : List ℚ).length 1).1[2]? =
      some (([2, 3, 5] : List ℚ).getD 2 0) :=
  (C6_roundtrip [2, 3, 5] 60 1 (by norm_num) 2 (by norm_num)).1 (by norm_num)

end MidiSampler
